import Mathlib

/-!
Verification of the natural-language specification of the `my-mcp-server`
repository (a natural-language → Kubernetes-operation bridge) against a
shallow embedding of its Python sources.

The embedding models, faithfully to the source files:
* `src/agent.py` / `src/agentcpp.py` / `src/agent-test.py`: the agent
  pipeline — generator client retry (`ask_llm`), JSON extraction
  (`extract_json_objects`), normalization (`interpret_intent`), validation
  (`validate_args`), and the per-turn execution loops (`run_agent`).
* `src/common.py` / `src/k8s_utils.py` / `src/k8s-mcp.py`: the TTL cache
  (`_cache_get` / `_cache_set` / `_cache_invalidate`), the cached listing
  helpers, and the `scale_deployment` tool.

Python dicts are modelled as insertion-ordered association lists, machine
time as `ℚ`, and external collaborators (cluster API, filesystem, HTTP
transport) as explicit function parameters.  All definitions are
executable.
-/

/-- A JSON-compatible value, as produced by `json.loads` on the texts this
program handles.  Numeric literals are modelled as integers (the program's
claims never depend on fractional numerals).  Objects are insertion-ordered
key/value lists, matching Python dict semantics. -/
inductive JVal where
  | jnull : JVal
  | jbool (b : Bool) : JVal
  | jnum (n : Int) : JVal
  | jstr (s : String) : JVal
  | jarr (elems : List JVal) : JVal
  | jobj (fields : List (String × JVal)) : JVal
deriving Repr

mutual

/-- Decidable equality for `JVal` (written by hand: the deriving handler
does not support this nested inductive). -/
def jvalDecEq : (a b : JVal) → Decidable (a = b)
  | .jnull, .jnull => .isTrue rfl
  | .jnull, .jbool _ => .isFalse (fun h => nomatch h)
  | .jnull, .jnum _ => .isFalse (fun h => nomatch h)
  | .jnull, .jstr _ => .isFalse (fun h => nomatch h)
  | .jnull, .jarr _ => .isFalse (fun h => nomatch h)
  | .jnull, .jobj _ => .isFalse (fun h => nomatch h)
  | .jbool _, .jnull => .isFalse (fun h => nomatch h)
  | .jbool a, .jbool b =>
    if h : a = b then .isTrue (by rw [h]) else .isFalse (fun hh => h (by cases hh; rfl))
  | .jbool _, .jnum _ => .isFalse (fun h => nomatch h)
  | .jbool _, .jstr _ => .isFalse (fun h => nomatch h)
  | .jbool _, .jarr _ => .isFalse (fun h => nomatch h)
  | .jbool _, .jobj _ => .isFalse (fun h => nomatch h)
  | .jnum _, .jnull => .isFalse (fun h => nomatch h)
  | .jnum _, .jbool _ => .isFalse (fun h => nomatch h)
  | .jnum a, .jnum b =>
    if h : a = b then .isTrue (by rw [h]) else .isFalse (fun hh => h (by cases hh; rfl))
  | .jnum _, .jstr _ => .isFalse (fun h => nomatch h)
  | .jnum _, .jarr _ => .isFalse (fun h => nomatch h)
  | .jnum _, .jobj _ => .isFalse (fun h => nomatch h)
  | .jstr _, .jnull => .isFalse (fun h => nomatch h)
  | .jstr _, .jbool _ => .isFalse (fun h => nomatch h)
  | .jstr _, .jnum _ => .isFalse (fun h => nomatch h)
  | .jstr a, .jstr b =>
    if h : a = b then .isTrue (by rw [h]) else .isFalse (fun hh => h (by cases hh; rfl))
  | .jstr _, .jarr _ => .isFalse (fun h => nomatch h)
  | .jstr _, .jobj _ => .isFalse (fun h => nomatch h)
  | .jarr _, .jnull => .isFalse (fun h => nomatch h)
  | .jarr _, .jbool _ => .isFalse (fun h => nomatch h)
  | .jarr _, .jnum _ => .isFalse (fun h => nomatch h)
  | .jarr _, .jstr _ => .isFalse (fun h => nomatch h)
  | .jarr xs, .jarr ys =>
    match jvalListDecEq xs ys with
    | .isTrue h => .isTrue (by rw [h])
    | .isFalse h => .isFalse (fun hh => h (by cases hh; rfl))
  | .jarr _, .jobj _ => .isFalse (fun h => nomatch h)
  | .jobj _, .jnull => .isFalse (fun h => nomatch h)
  | .jobj _, .jbool _ => .isFalse (fun h => nomatch h)
  | .jobj _, .jnum _ => .isFalse (fun h => nomatch h)
  | .jobj _, .jstr _ => .isFalse (fun h => nomatch h)
  | .jobj _, .jarr _ => .isFalse (fun h => nomatch h)
  | .jobj fs, .jobj gs =>
    match jvalFieldsDecEq fs gs with
    | .isTrue h => .isTrue (by rw [h])
    | .isFalse h => .isFalse (fun hh => h (by cases hh; rfl))

/-- Decidable equality for lists of `JVal`. -/
def jvalListDecEq : (xs ys : List JVal) → Decidable (xs = ys)
  | [], [] => .isTrue rfl
  | [], _ :: _ => .isFalse (fun h => nomatch h)
  | _ :: _, [] => .isFalse (fun h => nomatch h)
  | x :: xs, y :: ys =>
    match jvalDecEq x y with
    | .isFalse h1 => .isFalse (fun hh => h1 (by cases hh; rfl))
    | .isTrue h1 =>
      match jvalListDecEq xs ys with
      | .isTrue h2 => .isTrue (by rw [h1, h2])
      | .isFalse h2 => .isFalse (fun hh => h2 (by cases hh; rfl))

/-- Decidable equality for JSON object field lists. -/
def jvalFieldsDecEq : (xs ys : List (String × JVal)) → Decidable (xs = ys)
  | [], [] => .isTrue rfl
  | [], _ :: _ => .isFalse (fun h => nomatch h)
  | _ :: _, [] => .isFalse (fun h => nomatch h)
  | (k1, v1) :: xs, (k2, v2) :: ys =>
    if hk : k1 = k2 then
      match jvalDecEq v1 v2 with
      | .isFalse h1 => .isFalse (fun hh => h1 (by cases hh; rfl))
      | .isTrue h1 =>
        match jvalFieldsDecEq xs ys with
        | .isTrue h2 => .isTrue (by rw [hk, h1, h2])
        | .isFalse h2 => .isFalse (fun hh => h2 (by cases hh; rfl))
    else .isFalse (fun hh => hk (by cases hh; rfl))

end

instance : DecidableEq JVal := jvalDecEq

/-- Python truthiness of a JSON value (`bool(v)`): `None`, `False`, `0`,
`""`, `[]` and `{}` are falsy, everything else truthy. -/
def JVal.truthy : JVal → Bool
  | .jnull => false
  | .jbool b => b
  | .jnum n => n != 0
  | .jstr s => !s.isEmpty
  | .jarr es => !es.isEmpty
  | .jobj fs => !fs.isEmpty

/-- Python `dict.get(k)` on an insertion-ordered association list: the value
of the first (and, for a genuine dict, only) entry with key `k`. -/
def dGet {α : Type} : List (String × α) → String → Option α
  | [], _ => none
  | (k', v) :: r, k => if k' = k then some v else dGet r k

/-- Python `d[k] = v`: replace the entry in place if the key exists
(position preserved, as in Python 3.7+ dicts), else append at the end. -/
def dSet {α : Type} : List (String × α) → String → α → List (String × α)
  | [], k, v => [(k, v)]
  | (k', v') :: r, k, v => if k' = k then (k, v) :: r else (k', v') :: dSet r k v

/-- Python `d.pop(k, None)`: drop the entry with key `k` if present. -/
def dPop {α : Type} : List (String × α) → String → List (String × α)
  | [], _ => []
  | (k', v') :: r, k => if k' = k then r else (k', v') :: dPop r k

/-- Python `d.setdefault(k, v)`: insert `v` at the end only when the key is
absent; an existing value (even a falsy one) is left untouched. -/
def dSetdefault {α : Type} (l : List (String × α)) (k : String) (v : α) :
    List (String × α) :=
  if (dGet l k).isSome then l else l ++ [(k, v)]

/-- The key list of a dict, in insertion order (`d.keys()`). -/
def dKeys {α : Type} (l : List (String × α)) : List String := l.map Prod.fst

theorem dGet_dSet_self {α : Type} (l : List (String × α)) (k : String) (v : α)
    (h : dGet l k = some v) : dSet l k v = l := by
  induction l with
  | nil => simp [dGet] at h
  | cons hd tl ih =>
    obtain ⟨k', v'⟩ := hd
    by_cases hk : k' = k
    · simp only [dGet, if_pos hk] at h
      cases h
      simp [dSet, hk]
    · simp only [dGet, if_neg hk] at h
      simp [dSet, hk, ih h]

theorem dPop_absent {α : Type} (l : List (String × α)) (k : String)
    (h : dGet l k = none) : dPop l k = l := by
  induction l with
  | nil => rfl
  | cons hd tl ih =>
    by_cases hk : hd.1 = k
    · simp [dGet, hk] at h
    · simp only [dGet, hk, if_neg hk] at h
      simp [dPop, hk, ih h]

theorem dGet_dSet {α : Type} (l : List (String × α)) (k : String) (v : α) :
    dGet (dSet l k v) k = some v := by
  induction l with
  | nil => simp [dGet, dSet]
  | cons hd tl ih =>
    by_cases hk : hd.1 = k
    · simp [dSet, dGet, hk]
    · simp [dSet, dGet, hk, ih]

/-! ## The 30-second TTL cache (`src/common.py`, `src/k8s_utils.py`, `src/k8s-mcp.py`)

`_CACHE` maps a string key to `(timestamp, value)`; all cached values
appearing in the program are name lists, so the value type is
`List String`.  `time.time()` is modelled as an explicit rational `now`
passed to each operation. -/

/-- One cache state: insertion-ordered entries `key ↦ (timestamp, names)`. -/
abbrev CacheState := List (String × (ℚ × List String))

/-- The TTL constant `_CACHE_TTL = 30.0`. -/
def cacheTTL : ℚ := 30

/-- `_cache_get(key)` at time `now`: absent → `None`; present but strictly
older than the TTL → pop the entry and return `None`; otherwise return the
stored value.  Returns the possibly-mutated cache alongside the result. -/
def cacheGet (now : ℚ) (c : CacheState) (key : String) :
    Option (List String) × CacheState :=
  match dGet c key with
  | none => (none, c)
  | some (ts, v) => if now - ts > cacheTTL then (none, dPop c key) else (some v, c)

/-- `_cache_set(key, value)` at time `now`. -/
def cacheSet (now : ℚ) (c : CacheState) (key : String) (v : List String) :
    CacheState :=
  dSet c key (now, v)

/-- Python `str.startswith` on the model's strings. -/
def pyStartsWith (s pre : String) : Bool :=
  pre.data.isPrefixOf s.data

/-- `_cache_invalidate(prefix)`: collect every key starting with the prefix,
then pop each collected key in turn (the exact two-phase shape of the
source). -/
def cacheInvalidate (c : CacheState) (pre : String) : CacheState :=
  let toRemove := (dKeys c).filter (fun k => pyStartsWith k pre)
  toRemove.foldl (fun acc k => dPop acc k) c

/-- `list_namespaces_cached()` at time `now`: consult the cache under key
`"namespaces"`; on a miss perform the cluster fetch (modelled by the
`fetch` parameter: `some names` on success, `none` when the Kubernetes call
raises) and store the result on success.  Returns the name list, the new
cache, and whether a cluster fetch was performed. -/
def listNamespacesCached (now : ℚ) (c : CacheState)
    (fetch : Option (List String)) : List String × CacheState × Bool :=
  match cacheGet now c "namespaces" with
  | (some v, c') => (v, c', false)
  | (none, c') =>
    match fetch with
    | some names => (names, cacheSet now c' "namespaces" names, true)
    | none => ([], c', true)

/-- `list_deployments_cached(namespace)`: same pattern under the key
`"deployments::" ++ namespace`. -/
def listDeploymentsCached (now : ℚ) (c : CacheState) (ns : String)
    (fetch : Option (List String)) : List String × CacheState × Bool :=
  let key := "deployments::" ++ ns
  match cacheGet now c key with
  | (some v, c') => (v, c', false)
  | (none, c') =>
    match fetch with
    | some names => (names, cacheSet now c' key names, true)
    | none => ([], c', true)

/-! ## Command Extractor (`extract_json_objects` in all three agent variants)

The extractor first strips code-fence markup with
`re.sub(r"(backtick fences)(?:json)?", "", text, flags=re.IGNORECASE)` and
`re.sub(fences, "")`, then `.strip()`s, then scans with a brace-depth
counter, attempting `json.loads` on each substring whose depth returns to
zero.  `json.loads` is an external stdlib collaborator; the scanner is
parametrised over it (`loads`), and a concrete executable stand-in
`jsonLoads` is provided below for concrete evaluations. -/

/-- The backtick character (written by code, so fence markup never appears
literally in this file). -/
def tick : Char := '\x60'

/-- First substitution: delete every occurrence of three backticks
optionally followed by `json` (case-insensitively), scanning left to right
exactly as `re.sub` does. -/
def stripFencesJson : List Char → List Char
  | c1 :: c2 :: c3 :: j :: s :: o :: n :: rest2 =>
    if c1 = tick ∧ c2 = tick ∧ c3 = tick then
      if j.toLower = 'j' ∧ s.toLower = 's' ∧ o.toLower = 'o' ∧ n.toLower = 'n' then
        stripFencesJson rest2
      else
        stripFencesJson (j :: s :: o :: n :: rest2)
    else c1 :: stripFencesJson (c2 :: c3 :: j :: s :: o :: n :: rest2)
  | c1 :: c2 :: c3 :: rest =>
    if c1 = tick ∧ c2 = tick ∧ c3 = tick then stripFencesJson rest
    else c1 :: stripFencesJson (c2 :: c3 :: rest)
  | cs => cs

/-- Second substitution: delete every remaining occurrence of three
backticks. -/
def stripTicks : List Char → List Char
  | c1 :: c2 :: c3 :: rest =>
    if c1 = tick ∧ c2 = tick ∧ c3 = tick then stripTicks rest
    else c1 :: stripTicks (c2 :: c3 :: rest)
  | cs => cs

/-- Python `str.isspace` members relevant to `str.strip()`. -/
def pyIsSpace (c : Char) : Bool :=
  c = ' ' ∨ c = '\t' ∨ c = '\n' ∨ c = '\r' ∨ c = '\x0b' ∨ c = '\x0c'

/-- Python `str.strip()` on a character list. -/
def pyStripChars (cs : List Char) : List Char :=
  ((cs.dropWhile pyIsSpace).reverse.dropWhile pyIsSpace).reverse

/-- Python `str.strip()` on a string. -/
def pyStripStr (s : String) : String :=
  String.mk (pyStripChars s.data)

/-- The cleaned text the scanner runs over: both fence substitutions, then
`.strip()`. -/
def cleanText (text : String) : List Char :=
  pyStripChars (stripTicks (stripFencesJson text.data))

/-- The scanner's loop state: extracted objects so far, current brace
depth (`brace_level`, an `int` that may go negative on stray closing
braces), and the recorded start offset (`start`, initially `None`). -/
structure ScanSt where
  objs : List JVal
  level : Int
  start : Option Nat
deriving Repr, DecidableEq

/-- One iteration of the `for i, ch in enumerate(text)` loop of
`extract_json_objects`: on an opening brace record the start offset when at
depth zero; on a closing brace decrement, and when depth returns to zero
with a recorded start, attempt `loads` on the slice `text[start:i+1]`,
appending the object on success and silently discarding on failure. -/
def scanStep (loads : List Char → Option JVal) (cs : List Char) (st : ScanSt)
    (i : Nat) (ch : Char) : ScanSt :=
  if ch = '\x7b' then
    { st with start := if st.level = 0 then some i else st.start,
              level := st.level + 1 }
  else if ch = '\x7d' then
    let lvl := st.level - 1
    if lvl = 0 then
      match st.start with
      | some s =>
        match loads ((cs.drop s).take (i + 1 - s)) with
        | some v => { objs := st.objs ++ [v], level := lvl, start := st.start }
        | none => { st with level := lvl }
      | none => { st with level := lvl }
    else { st with level := lvl }
  else st

/-- Run the scanner from index `i` over the remaining characters; `cs` is
the full cleaned text the slices are taken from. -/
def scanFrom (loads : List Char → Option JVal) (cs : List Char) :
    Nat → List Char → ScanSt → ScanSt
  | _, [], st => st
  | i, c :: r, st => scanFrom loads cs (i + 1) r (scanStep loads cs st i c)

/-- `extract_json_objects(text)`, parametrised over the `json.loads`
collaborator. -/
def extractJsonObjects (loads : List Char → Option JVal) (text : String) :
    List JVal :=
  let cs := cleanText text
  (scanFrom loads cs 0 cs ⟨[], 0, none⟩).objs

/-! ### A concrete `json.loads` stand-in

Modelled from the spec: `json.loads` (Python stdlib, not part of `src/`)
parses a complete JSON document.  `jsonLoads` implements the subset with
integer numerals and escape-free strings, and fails (rather than deviate)
on the rest, so whenever it returns `some v` the stdlib parser returns the
same object. -/

/-- JSON whitespace accepted between tokens. -/
def jsonIsWs (c : Char) : Bool :=
  c = ' ' ∨ c = '\t' ∨ c = '\n' ∨ c = '\r'

/-- Skip JSON whitespace. -/
def skipWs (cs : List Char) : List Char := cs.dropWhile jsonIsWs

/-- Parse the body of a JSON string after the opening quote; fails on
backslash escapes and control characters (unsupported subset). -/
def parseStrBody : List Char → Option (String × List Char)
  | [] => none
  | c :: r =>
    if c = '"' then some ("", r)
    else if c = '\\' ∨ c.toNat < 32 then none
    else match parseStrBody r with
      | some (s, rest) => some (String.mk (c :: s.data), rest)
      | none => none

/-- Parse a nonempty digit run into a natural number. -/
def parseDigits : List Char → Option (Nat × List Char)
  | c :: r =>
    if c.isDigit then
      match parseDigits r with
      | some (n, rest) => some ((c.toNat - 48) * 10 ^ (r.length - rest.length) + n, rest)
      | none => some (c.toNat - 48, r)
    else none
  | [] => none

mutual

/-- Parse one JSON value (integer-numeral subset); `fuel` bounds recursion
depth and is decremented on every recursive call. -/
def parseJVal : Nat → List Char → Option (JVal × List Char)
  | 0, _ => none
  | fuel + 1, cs =>
    match skipWs cs with
    | 't' :: 'r' :: 'u' :: 'e' :: r => some (.jbool true, r)
    | 'f' :: 'a' :: 'l' :: 's' :: 'e' :: r => some (.jbool false, r)
    | 'n' :: 'u' :: 'l' :: 'l' :: r => some (.jnull, r)
    | '"' :: r =>
      match parseStrBody r with
      | some (s, rest) => some (.jstr s, rest)
      | none => none
    | '\x7b' :: r =>
      (match skipWs r with
       | '\x7d' :: r2 => some (.jobj [], r2)
       | _ => parseFields fuel r [])
    | '[' :: r =>
      (match skipWs r with
       | ']' :: r2 => some (.jarr [], r2)
       | _ => parseElems fuel r [])
    | '-' :: r =>
      (match parseDigits r with
       | some (n, rest) =>
         (match rest with
          | '.' :: _ => none
          | 'e' :: _ => none
          | 'E' :: _ => none
          | _ => some (.jnum (-(n : Int)), rest))
       | none => none)
    | c :: r =>
      if c.isDigit then
        match parseDigits (c :: r) with
        | some (n, rest) =>
          (match rest with
           | '.' :: _ => none
           | 'e' :: _ => none
           | 'E' :: _ => none
           | _ => some (.jnum (n : Int), rest))
        | none => none
      else none
    | [] => none

/-- Parse the remaining `"key": value` pairs of an object (at least one),
accumulating in order. -/
def parseFields : Nat → List Char → List (String × JVal) →
    Option (JVal × List Char)
  | 0, _, _ => none
  | fuel + 1, cs, acc =>
    match skipWs cs with
    | '"' :: r =>
      (match parseStrBody r with
       | some (k, rest) =>
         (match skipWs rest with
          | ':' :: r2 =>
            (match parseJVal fuel r2 with
             | some (v, r3) =>
               (match skipWs r3 with
                | ',' :: r4 => parseFields fuel r4 (acc ++ [(k, v)])
                | '\x7d' :: r4 => some (.jobj (acc ++ [(k, v)]), r4)
                | _ => none)
             | none => none)
          | _ => none)
       | none => none)
    | _ => none

/-- Parse the remaining elements of an array (at least one). -/
def parseElems : Nat → List Char → List JVal → Option (JVal × List Char)
  | 0, _, _ => none
  | fuel + 1, cs, acc =>
    match parseJVal fuel cs with
    | some (v, rest) =>
      (match skipWs rest with
       | ',' :: r2 => parseElems fuel r2 (acc ++ [v])
       | ']' :: r2 => some (.jarr (acc ++ [v]), r2)
       | _ => none)
    | none => none

end

/-- The concrete `json.loads` stand-in: parse one complete document and
require only trailing whitespace. -/
def jsonLoads (cs : List Char) : Option JVal :=
  match parseJVal (cs.length + 2) cs with
  | some (v, rest) => if (skipWs rest).isEmpty then some v else none
  | none => none

/-! ## Tool registry and command normalization (`interpret_intent`)

Two registry formats occur in the source: `k8s-mcp.py` serves
`GET /tools` as `name ↦ {signature: {param: type}, doc}` (consumed by
`agent.py`), while `server.py` serves the bare signature dict
`name ↦ {param: type}` (consumed by `agentcpp.py` / `agent-test.py`,
whose `tool_requires_namespace` checks the top level of the entry). -/

/-- One `/tools` entry in the `k8s-mcp.py` format. -/
structure ToolInfo where
  signature : List (String × String)
  doc : String
deriving Repr, DecidableEq

/-- The agent's `TOOLS_INFO` registry, `k8s-mcp.py` format. -/
abbrev Registry := List (String × ToolInfo)

/-- The registry in the `server.py` format: tool name ↦ signature dict. -/
abbrev RegistryCpp := List (String × List (String × String))

/-- `tool_requires_namespace` of `agent.py`: the tool's `signature` mapping
declares a `namespace` key (unknown tool → empty info → `False`). -/
def toolRequiresNamespace (reg : Registry) (toolName : String) : Bool :=
  match dGet reg toolName with
  | some info => (dGet info.signature "namespace").isSome
  | none => false

/-- `tool_requires_namespace` of `agentcpp.py` / `agent-test.py`: the
registry entry itself (the bare signature dict served by `server.py`)
contains a `namespace` key. -/
def toolRequiresNamespaceCpp (reg : RegistryCpp) (toolName : String) : Bool :=
  match dGet reg toolName with
  | some sig => (dGet sig "namespace").isSome
  | none => false

/-- The normalization loop body of `agent.py`'s `interpret_intent` for one
extracted object: discard non-dicts and dicts without a `"tool"` key;
ensure a dict `"args"` container; if the tool declares `namespace`, set
`args["namespace"] = "default"` when it is absent **or falsy**, otherwise
pop any `namespace`; finally keep the candidate only when the tool name is
a known registry key.  (A non-string `"tool"` value never matches a
registry key and the candidate is dropped.) -/
def normalizeAgent (reg : Registry) (data : JVal) :
    Option (List (String × JVal)) :=
  match data with
  | .jobj kvs =>
    if (dGet kvs "tool").isSome then
      let kvs1 := match dGet kvs "args" with
        | some (JVal.jobj _) => kvs
        | _ => dSet kvs "args" (.jobj [])
      let argFs := match dGet kvs1 "args" with
        | some (JVal.jobj fs) => fs
        | _ => []
      let requires := match dGet kvs1 "tool" with
        | some (JVal.jstr t) => toolRequiresNamespace reg t
        | _ => false
      let argFs2 :=
        if requires then
          match dGet argFs "namespace" with
          | none => dSet argFs "namespace" (.jstr "default")
          | some v =>
            if v.truthy then argFs else dSet argFs "namespace" (.jstr "default")
        else dPop argFs "namespace"
      let kvs2 := dSet kvs1 "args" (.jobj argFs2)
      match dGet kvs2 "tool" with
      | some (JVal.jstr t) => if (dGet reg t).isSome then some kvs2 else none
      | _ => none
    else none
  | _ => none

/-- The normalization loop body of `agentcpp.py` / `agent-test.py`:
identical except that `namespace` is filled with
`args.setdefault("namespace", "default")`, which inserts only when the key
is absent and leaves an existing falsy value untouched. -/
def normalizeCpp (reg : RegistryCpp) (data : JVal) :
    Option (List (String × JVal)) :=
  match data with
  | .jobj kvs =>
    if (dGet kvs "tool").isSome then
      let kvs1 := match dGet kvs "args" with
        | some (JVal.jobj _) => kvs
        | _ => dSet kvs "args" (.jobj [])
      let argFs := match dGet kvs1 "args" with
        | some (JVal.jobj fs) => fs
        | _ => []
      let requires := match dGet kvs1 "tool" with
        | some (JVal.jstr t) => toolRequiresNamespaceCpp reg t
        | _ => false
      let argFs2 :=
        if requires then dSetdefault argFs "namespace" (.jstr "default")
        else dPop argFs "namespace"
      let kvs2 := dSet kvs1 "args" (.jobj argFs2)
      match dGet kvs2 "tool" with
      | some (JVal.jstr t) => if (dGet reg t).isSome then some kvs2 else none
      | _ => none
    else none
  | _ => none

/-- The full candidate list produced by `agent.py`'s `interpret_intent`
from the extracted objects: normalize each in order, dropping discarded
ones. -/
def interpretIntentAgent (reg : Registry) (extracted : List JVal) :
    List (List (String × JVal)) :=
  extracted.filterMap (normalizeAgent reg)

/-- The candidate list produced by `agentcpp.py`'s `interpret_intent`. -/
def interpretIntentCpp (reg : RegistryCpp) (extracted : List JVal) :
    List (List (String × JVal)) :=
  extracted.filterMap (normalizeCpp reg)

/-! ## Argument/state validator (`validate_args` of `agent.py`)

Cluster state is reached through `call_mcp`; the model records every such
query in order and answers it through the `resp` parameter.  A response is
a list of JSON entries; the comprehension
`[n["name"] for n in xs if isinstance(n, dict)]` keeps dict entries'
`"name"` fields, raising `KeyError` on a dict without one (the enclosing
`try` then abandons the remaining checks of the same block). -/

/-- A cluster-state query issued through `call_mcp` during validation. -/
inductive Query where
  | qNamespaces
  | qPods (ns : JVal)
  | qDeps (ns : JVal)
  | qSvcs (ns : JVal)
deriving Repr, DecidableEq

/-- One entry of a `call_mcp` list response, as seen by the name
comprehension. -/
inductive Entry where
  | withName (s : String)
  | dictNoName
  | nonDict
deriving Repr, DecidableEq

/-- `[n["name"] for n in entries if isinstance(n, dict)]`: `none` models the
`KeyError` raised on a dict entry without a `"name"` key. -/
def namesOf : List Entry → Option (List String)
  | [] => some []
  | .withName s :: r => (namesOf r).map (s :: ·)
  | .dictNoName :: _ => none
  | .nonDict :: r => namesOf r

/-- A validation error message, one constructor per `errors.append` site of
`validate_args`, carrying the interpolated values. -/
inductive ErrMsg where
  | unexpectedArg (k : String)
  | missingArg (k : String)
  | nsNotFound (ns : JVal)
  | podNotFound (name : JVal) (ns : JVal)
  | depNotFound (name : JVal) (ns : JVal)
  | svcNotFound (name : JVal) (ns : JVal)
  | fileNotFound (p : JVal)
deriving Repr, DecidableEq

/-- Python `str(v)` / f-string rendering for the scalar JSON values that
reach message interpolation (container renderings are placeholders; no
claim depends on them). -/
def pyStr : JVal → String
  | .jnull => "None"
  | .jbool true => "True"
  | .jbool false => "False"
  | .jnum n => toString n
  | .jstr s => s
  | .jarr _ => "[...]"
  | .jobj _ => "\x7b...\x7d"

/-- The exact message string of each error, as built by `validate_args`. -/
def ErrMsg.render : ErrMsg → String
  | .unexpectedArg k => "Unexpected argument '" ++ k ++ "'."
  | .missingArg k => "Missing argument '" ++ k ++ "'."
  | .nsNotFound v => "Namespace '" ++ pyStr v ++ "' not found."
  | .podNotFound n ns => "Pod '" ++ pyStr n ++ "' not found in '" ++ pyStr ns ++ "'."
  | .depNotFound n ns =>
    "Deployment '" ++ pyStr n ++ "' not found in '" ++ pyStr ns ++ "'."
  | .svcNotFound n ns =>
    "Service '" ++ pyStr n ++ "' not found in '" ++ pyStr ns ++ "'."
  | .fileNotFound p => "File '" ++ pyStr p ++ "' not found or inaccessible."

/-- Membership of a JSON value in a list of strings (`v in names`): only a
string can match. -/
def jvalInStrList (v : JVal) (names : List String) : Bool :=
  match v with
  | .jstr s => names.contains s
  | _ => false

/-- Python `a or b` over optional argument values: `a` when present and
truthy, else `b`. -/
def pyOr (a b : Option JVal) : Option JVal :=
  match a with
  | some v => if v.truthy then some v else b
  | none => b

/-- Substring test (`needle in hay` on Python strings). -/
def strHasSub (needle hay : String) : Bool :=
  (List.range (hay.data.length + 1)).any
    (fun i => needle.data.isPrefixOf (hay.data.drop i))

/-- The verdict of `validate_args` together with the model's observation
trace: accumulated errors, the suggestions dict, the cluster queries issued
in order, and the (possibly `file`-rewritten) argument dict. -/
structure VOut where
  errors : List ErrMsg
  suggestions : List (String × List String)
  queries : List Query
  argsOut : List (String × JVal)
deriving Repr, DecidableEq

/-- Accumulator for validator checks: errors, suggestions, queries. -/
abbrev VAcc := List ErrMsg × List (String × List String) × List Query

/-- One resource-existence check of `validate_args` step 4 (pods,
deployments or services): issue the scoped list query, build the name list,
resolve the target from `name` or the kind alias, and record the error and
suggestion list when a truthy target is not among the names.  The returned
flag reports the comprehension's `KeyError`, which aborts the remaining
checks of the enclosing `try`. -/
def resourceCheck (resp : Query → List Entry) (q : Query)
    (args : List (String × JVal)) (aliasKey : String)
    (mkErr : JVal → JVal → ErrMsg) (sugKey : String) (nsScope : JVal)
    (st : VAcc) : VAcc × Bool :=
  let (errs, sugg, qs) := st
  match namesOf (resp q) with
  | none => ((errs, sugg, qs ++ [q]), true)
  | some names =>
    match pyOr (dGet args "name") (dGet args aliasKey) with
    | some tv =>
      if tv.truthy ∧ ¬ jvalInStrList tv names then
        ((errs ++ [mkErr tv nsScope], dSet sugg sugKey names, qs ++ [q]), false)
      else ((errs, sugg, qs ++ [q]), false)
    | none => ((errs, sugg, qs ++ [q]), false)

/-- `validate_args(command)` of `agent.py` on a command with tool name
`toolName` and argument dict `args` (the run loop only ever passes
normalized commands, whose `tool` is a known string and whose `args` is a
dict).  `resp` answers cluster queries, `fileExists`/`abspath` model the
filesystem collaborators of the `file` check. -/
def validateArgs (reg : Registry) (resp : Query → List Entry)
    (fileExists : JVal → Bool) (abspath : JVal → JVal)
    (toolName : String) (args : List (String × JVal)) : VOut :=
  let signature :=
    match dGet reg toolName with
    | some info => info.signature
    | none => []
  let step1 : List ErrMsg × List (String × List String) :=
    args.foldl
      (fun acc kv =>
        if (dGet signature kv.1).isSome then acc
        else (acc.1 ++ [.unexpectedArg kv.1],
              dSet acc.2 "expected_args" (dKeys signature)))
      ([], [])
  let errs2 := step1.1 ++ signature.filterMap
      (fun p =>
        if p.1 = "return" ∨ (dGet args p.1).isSome then none
        else some (ErrMsg.missingArg p.1))
  let st3 : VAcc :=
    match dGet args "namespace" with
    | none => (errs2, step1.2, [])
    | some nsv =>
      match namesOf (resp .qNamespaces) with
      | none => (errs2, step1.2, [Query.qNamespaces])
      | some names =>
        if jvalInStrList nsv names then (errs2, step1.2, [Query.qNamespaces])
        else (errs2 ++ [.nsNotFound nsv],
              dSet step1.2 "available_namespaces" names, [Query.qNamespaces])
  let nsScope := (dGet args "namespace").getD (.jstr "default")
  let podPat := (strHasSub "pod" toolName ∨ strHasSub "pods" toolName) ∧
      ¬ strHasSub "create" toolName
  let depPat := (strHasSub "deployment" toolName ∨
      strHasSub "deployments" toolName) ∧ ¬ strHasSub "create" toolName
  let svcPat := (strHasSub "service" toolName ∨ strHasSub "svc" toolName) ∧
      ¬ strHasSub "create" toolName
  let p1 : VAcc × Bool :=
    if podPat then
      resourceCheck resp (.qPods nsScope) args "pod_name" .podNotFound
        "available_pods" nsScope st3
    else (st3, false)
  let p2 : VAcc × Bool :=
    if ¬ p1.2 ∧ depPat then
      resourceCheck resp (.qDeps nsScope) args "deployment_name" .depNotFound
        "available_deployments" nsScope p1.1
    else (p1.1, p1.2)
  let p3 : VAcc × Bool :=
    if ¬ p2.2 ∧ svcPat then
      resourceCheck resp (.qSvcs nsScope) args "service_name" .svcNotFound
        "available_services" nsScope p2.1
    else (p2.1, p2.2)
  let fileRes : List ErrMsg × List (String × JVal) :=
    match dGet args "file" with
    | none => (p3.1.1, args)
    | some fv =>
      if fileExists fv then (p3.1.1, dSet args "file" (abspath fv))
      else (p3.1.1 ++ [.fileNotFound fv], args)
  { errors := fileRes.1, suggestions := p3.1.2.1, queries := p3.1.2.2,
    argsOut := fileRes.2 }

/-! ## Per-turn execution loops (`run_agent`)

`agent.py` validates each candidate and dispatches `call_mcp(cmd)` only
when the verdict has no errors, continuing with the remaining candidates
either way.  `agentcpp.py` (lines 303–319) dispatches every candidate with
no validation step at all.  The models record, by position, which
candidates are dispatched to the executor and which are reported as
validation failures. -/

/-- Outcome of one `agent.py` turn: positions dispatched to `call_mcp` and
positions reported as validation failures, in loop order. -/
structure TurnOut where
  executed : List Nat
  reported : List Nat
deriving Repr, DecidableEq

/-- The tool name the run loop hands to validation (`cmd['tool']`;
normalized commands always carry a known string here). -/
def cmdTool (cmd : List (String × JVal)) : String :=
  match dGet cmd "tool" with
  | some (JVal.jstr s) => s
  | _ => ""

/-- The argument dict the run loop hands to validation (`cmd['args']`;
normalized commands always carry a dict here). -/
def cmdArgs (cmd : List (String × JVal)) : List (String × JVal) :=
  match dGet cmd "args" with
  | some (JVal.jobj fs) => fs
  | _ => []

/-- The command loop of `agent.py`'s `run_agent` (lines 263–273), from
position `i`. -/
def runTurnAgentAux (reg : Registry) (resp : Query → List Entry)
    (fileExists : JVal → Bool) (abspath : JVal → JVal) :
    Nat → List (List (String × JVal)) → TurnOut → TurnOut
  | _, [], out => out
  | i, cmd :: r, out =>
    let v := validateArgs reg resp fileExists abspath (cmdTool cmd) (cmdArgs cmd)
    if v.errors.isEmpty then
      runTurnAgentAux reg resp fileExists abspath (i + 1) r
        { out with executed := out.executed ++ [i] }
    else
      runTurnAgentAux reg resp fileExists abspath (i + 1) r
        { out with reported := out.reported ++ [i] }

/-- The command loop of `agent.py`'s `run_agent` over one turn's
candidates. -/
def runTurnAgent (reg : Registry) (resp : Query → List Entry)
    (fileExists : JVal → Bool) (abspath : JVal → JVal)
    (cmds : List (List (String × JVal))) : TurnOut :=
  runTurnAgentAux reg resp fileExists abspath 0 cmds ⟨[], []⟩

/-- The command loop of `agentcpp.py`'s `run_agent` (lines 303–319), from
position `i`: every candidate is dispatched via `call_mcp`, with no
validation. -/
def runTurnCppAux : Nat → List (List (String × JVal)) → List Nat
  | _, [] => []
  | i, _ :: r => i :: runTurnCppAux (i + 1) r

/-- The executor dispatch positions of one `agentcpp.py` turn. -/
def runTurnCpp (cmds : List (List (String × JVal))) : List Nat :=
  runTurnCppAux 0 cmds

/-! ## Generator client (`ask_llm` of `agentcpp.py` and `agent-test.py`)

One transport attempt either fails at the network/HTTP/JSON layer
(`netFail`, anything raised by `requests.post` / `raise_for_status` /
`.json()`) or yields a parsed JSON body.  The response-shape probing runs
inside the same `try`, so an exception there is also treated as an attempt
failure. -/

/-- Outcome of one HTTP attempt against the generator backend. -/
inductive AttemptRes where
  | netFail
  | response (data : JVal)

/-- The `content` / `choices[0].text` probing shared by both variants:
`some` is the returned text, `none` models an exception inside the `try`
(e.g. `.strip()` on a non-string). -/
def parseContentChoices (fs : List (String × JVal)) : Option String :=
  match dGet fs "content" with
  | some (JVal.jstr s) => some (pyStripStr s)
  | some _ => none
  | none =>
    match dGet fs "choices" with
    | some v =>
      if v.truthy then
        match v with
        | JVal.jarr (c :: _) =>
          (match c with
           | JVal.jobj cf =>
             (match (dGet cf "text").getD (JVal.jstr "") with
              | JVal.jstr s => some (pyStripStr s)
              | _ => none)
           | _ => none)
        | _ => none
      else some ""
    | none => some ""

/-- Response handling of `agentcpp.py`'s `ask_llm`: a non-dict body falls
through to `return ""`. -/
def parseLlmResp (data : JVal) : Option String :=
  match data with
  | JVal.jobj fs => parseContentChoices fs
  | _ => some ""

/-- Response handling of `agent-test.py`'s `ask_llm`: probes a `response`
field first, then the shared `content`/`choices` chain. -/
def parseLlmRespTest (data : JVal) : Option String :=
  match data with
  | JVal.jobj fs =>
    (match dGet fs "response" with
     | some (JVal.jstr s) => some (pyStripStr s)
     | some _ => none
     | none => parseContentChoices fs)
  | _ => some ""

/-- The outcome of one full attempt: `none` when anything inside the `try`
raises. -/
def tryAttempt (parse : JVal → Option String) (a : AttemptRes) :
    Option String :=
  match a with
  | .netFail => none
  | .response d => parse d

/-- The `for attempt in range(2)` retry loop shared by `agentcpp.py` and
`agent-test.py`: first attempt; on failure sleep 3 seconds and retry once;
on second failure return `""`.  Returns the text, the number of attempts
made, and the list of sleep durations. -/
def askLlmRetry (parse : JVal → Option String) (attempts : Nat → AttemptRes) :
    String × Nat × List Nat :=
  match tryAttempt parse (attempts 0) with
  | some s => (s, 1, [])
  | none =>
    match tryAttempt parse (attempts 1) with
    | some s => (s, 2, [3])
    | none => ("", 2, [3])

/-- `ask_llm` of `agentcpp.py`. -/
def askLlmCpp (attempts : Nat → AttemptRes) : String × Nat × List Nat :=
  askLlmRetry parseLlmResp attempts

/-- `ask_llm` of `agent-test.py`. -/
def askLlmTest (attempts : Nat → AttemptRes) : String × Nat × List Nat :=
  askLlmRetry parseLlmRespTest attempts

/-! ## `scale_deployment` (`src/k8s-mcp.py`, lines 449–467)

The tool first runs `validate_deployment` (cache-backed existence checks),
then validates the replica count, and only then patches the scale and
invalidates the deployments cache key.  Cluster fetches and the patch API
are explicit parameters; the trace records patch attempts and
`_cache_invalidate` calls. -/

/-- The cluster fetches `validate_deployment` may trigger through the
cached listing helpers: the namespace list and the per-namespace deployment
list (`none` models the Kubernetes client raising). -/
structure ClusterIO where
  nsFetch : Option (List String)
  depFetch : String → Option (List String)

/-- `invalid_response(msg, suggestion_list)` of `k8s-mcp.py`. -/
def invalidResponse (msg : String) (sugg : Option (List String)) : JVal :=
  .jobj [("error", .jstr msg),
         ("suggestion", .jstr
           (match sugg with
            | some l =>
              if l.isEmpty then "" else "Try one of: " ++ String.intercalate ", " l
            | none => ""))]

/-- `validate_deployment(namespace, deployment_name)`: falsy-argument
checks, then cached namespace existence, then cached deployment existence.
Returns the error response (or `none`) and the updated cache. -/
def validateDeployment (now : ℚ) (c : CacheState) (io : ClusterIO)
    (ns dn : JVal) : Option JVal × CacheState :=
  if ¬ ns.truthy then
    (some (invalidResponse "Missing namespace argument." none), c)
  else if ¬ dn.truthy then
    (some (invalidResponse "Missing deployment_name argument." none), c)
  else
    let r1 := listNamespacesCached now c io.nsFetch
    if ¬ jvalInStrList ns r1.1 then
      (some (invalidResponse ("Namespace '" ++ pyStr ns ++ "' does not exist.")
        (some r1.1)), r1.2.1)
    else
      let r2 := listDeploymentsCached now r1.2.1 (pyStr ns) (io.depFetch (pyStr ns))
      if ¬ jvalInStrList dn r2.1 then
        (some (invalidResponse ("Deployment '" ++ pyStr dn ++
          "' not found in namespace '" ++ pyStr ns ++ "'.") (some r2.1)), r2.2.1)
      else (none, r2.2.1)

/-- Python `int(v)` on a JSON value: integers pass through, booleans
convert, integer-literal strings (optionally signed, surrounding
whitespace allowed) parse, everything else raises (`none`). -/
def pyInt (v : JVal) : Option Int :=
  match v with
  | .jnum n => some n
  | .jbool b => some (if b then 1 else 0)
  | .jstr s =>
    let cs := pyStripChars s.data
    let core := match cs with
      | '+' :: r => some (r, (1 : Int))
      | '-' :: r => some (r, (-1 : Int))
      | r => some (r, (1 : Int))
    match core with
    | some (ds, sign) =>
      if ds ≠ [] ∧ ds.all Char.isDigit then
        some (sign * (ds.foldl (fun acc c => acc * 10 + (c.toNat - 48)) 0 : Nat))
      else none
    | none => none
  | _ => none

/-- Trace of the mutating collaborator calls made by `scale_deployment`:
scale-patch attempts `(deployment, namespace, replicas)` and
`_cache_invalidate` prefixes, in order. -/
structure ScaleTrace where
  patches : List (String × String × Int)
  invalidations : List String
deriving Repr, DecidableEq

/-- `scale_deployment(deployment_name, replicas, namespace)` of
`k8s-mcp.py`: deployment validation, replica validation, then the scale
patch (`apiOk = none` for success, `some e` for an `ApiException`) followed
by cache invalidation of the namespace's deployments key. -/
def scaleDeployment (now : ℚ) (c : CacheState) (io : ClusterIO)
    (apiOk : Option String) (dn replicas ns : JVal) :
    JVal × CacheState × ScaleTrace :=
  match validateDeployment now c io ns dn with
  | (some err, c1) => (err, c1, ⟨[], []⟩)
  | (none, c1) =>
    match pyInt replicas with
    | none => (invalidResponse "Replicas must be an integer." none, c1, ⟨[], []⟩)
    | some r =>
      if r < 0 then
        (invalidResponse "Replicas must be >= 0." none, c1, ⟨[], []⟩)
      else
        match apiOk with
        | none =>
          let key := "deployments::" ++ pyStr ns
          (.jobj [("status", .jstr "success"),
                  ("message", .jstr ("Deployment " ++ pyStr dn ++ " scaled to " ++
                    pyStr replicas ++ " in " ++ pyStr ns ++ "."))],
           cacheInvalidate c1 key, ⟨[(pyStr dn, pyStr ns, r)], [key]⟩)
        | some e =>
          (.jobj [("status", .jstr "error"), ("message", .jstr e)], c1,
           ⟨[(pyStr dn, pyStr ns, r)], []⟩)

/-! ## Structured brace texts

To state what the extractor returns, a cleaned text is presented as an
alternation of brace-free prose characters and top-level balanced brace
blocks (`Top`), whose block interiors are themselves balanced sequences
(`Bal`).  These are data-level presentations: `flatten` recovers the
character list, and the boolean well-formedness checks make every
hypothesis decidable. -/

/-- A balanced brace-sequence: empty, a plain character followed by a
balanced sequence, or a brace-enclosed balanced interior followed by a
balanced sequence. -/
inductive Bal where
  | nil : Bal
  | ch (c : Char) (rest : Bal) : Bal
  | node (inner : Bal) (rest : Bal) : Bal

/-- The character list a `Bal` presents. -/
def Bal.flatten : Bal → List Char
  | .nil => []
  | .ch c r => c :: r.flatten
  | .node i r => '\x7b' :: (i.flatten ++ '\x7d' :: r.flatten)

/-- Well-formedness: plain characters are not braces. -/
def Bal.ok : Bal → Bool
  | .nil => true
  | .ch c r => decide (c ≠ '\x7b') && decide (c ≠ '\x7d') && r.ok
  | .node i r => i.ok && r.ok

/-- A top-level alternation of brace-free prose characters and balanced
blocks. -/
inductive TopSeq where
  | nil : TopSeq
  | ch (c : Char) (rest : TopSeq) : TopSeq
  | obj (inner : Bal) (rest : TopSeq) : TopSeq

/-- The character list a `TopSeq` presents. -/
def TopSeq.flatten : TopSeq → List Char
  | .nil => []
  | .ch c r => c :: r.flatten
  | .obj i r => '\x7b' :: (i.flatten ++ '\x7d' :: r.flatten)

/-- Well-formedness: prose characters are not braces and block interiors
are well-formed. -/
def TopSeq.ok : TopSeq → Bool
  | .nil => true
  | .ch c r => decide (c ≠ '\x7b') && decide (c ≠ '\x7d') && r.ok
  | .obj i r => i.ok && r.ok

/-- The top-level brace-delimited blocks of the text, in order of
appearance. -/
def TopSeq.objects : TopSeq → List (List Char)
  | .nil => []
  | .ch _ r => r.objects
  | .obj i r => ('\x7b' :: (i.flatten ++ ['\x7d'])) :: r.objects

theorem scanFrom_append (loads : List Char → Option JVal) (cs : List Char)
    (xs : List Char) : ∀ (ys : List Char) (i : Nat) (st : ScanSt),
    scanFrom loads cs i (xs ++ ys) st =
      scanFrom loads cs (i + xs.length) ys (scanFrom loads cs i xs st) := by
  induction xs with
  | nil => intro ys i st; simp [scanFrom]
  | cons x xr ih =>
    intro ys i st
    show scanFrom loads cs (i + 1) (xr ++ ys) (scanStep loads cs st i x) =
      scanFrom loads cs (i + (x :: xr).length) ys
        (scanFrom loads cs (i + 1) xr (scanStep loads cs st i x))
    rw [ih]
    congr 1
    simp [List.length_cons]
    omega

theorem scanStep_other (loads : List Char → Option JVal) (cs : List Char)
    (st : ScanSt) (i : Nat) (c : Char) (h1 : c ≠ '\x7b') (h2 : c ≠ '\x7d') :
    scanStep loads cs st i c = st := by
  simp [scanStep, h1, h2]

theorem scanFrom_bal (loads : List Char → Option JVal) (cs : List Char)
    (b : Bal) : ∀ (i : Nat) (st : ScanSt), b.ok = true → 1 ≤ st.level →
    scanFrom loads cs i b.flatten st = st := by
  induction b with
  | nil => intro i st _ _; simp [Bal.flatten, scanFrom]
  | ch c r ih =>
    intro i st hok hlev
    simp only [Bal.ok, Bool.and_eq_true, decide_eq_true_eq] at hok
    simp only [Bal.flatten, scanFrom]
    rw [scanStep_other loads cs st i c hok.1.1 hok.1.2]
    exact ih (i + 1) st hok.2 hlev
  | node inner r ih1 ih2 =>
    intro i st hok hlev
    obtain ⟨objs, lev, st0⟩ := st
    simp only [Bal.ok, Bool.and_eq_true] at hok
    simp only at hlev
    simp only [Bal.flatten, scanFrom]
    have hne : ¬ (lev = 0) := by omega
    have hstep : scanStep loads cs ⟨objs, lev, st0⟩ i '\x7b' =
        ⟨objs, lev + 1, st0⟩ := by
      simp [scanStep, hne]
    rw [hstep, scanFrom_append]
    rw [ih1 (i + 1) ⟨objs, lev + 1, st0⟩ hok.1 (by simp; omega)]
    simp only [scanFrom]
    have hne2 : ¬ (lev + 1 - 1 = 0) := by omega
    have hstep2 : scanStep loads cs ⟨objs, lev + 1, st0⟩
        (i + 1 + inner.flatten.length) '\x7d' = ⟨objs, lev, st0⟩ := by
      simp [scanStep, hne2, hne]
    rw [hstep2]
    exact ih2 (i + 1 + inner.flatten.length + 1) ⟨objs, lev, st0⟩ hok.2 hlev

theorem scanStep_objs_none (loads : List Char → Option JVal) (cs : List Char)
    (st : ScanSt) (i : Nat) (c : Char) (h : ∀ seg, loads seg = none) :
    (scanStep loads cs st i c).objs = st.objs := by
  simp only [scanStep, h]
  split
  · rfl
  · split
    · split
      · split <;> rfl
      · rfl
    · rfl

theorem scanFrom_objs_none (loads : List Char → Option JVal) (cs : List Char)
    (h : ∀ seg, loads seg = none) :
    ∀ (l : List Char) (i : Nat) (st : ScanSt),
    (scanFrom loads cs i l st).objs = st.objs := by
  intro l
  induction l with
  | nil => intro i st; rfl
  | cons c r ih =>
    intro i st
    simp only [scanFrom]
    rw [ih (i + 1) (scanStep loads cs st i c)]
    exact scanStep_objs_none loads cs st i c h

theorem scanFrom_topSeq (loads : List Char → Option JVal) (cs : List Char)
    (t : TopSeq) : ∀ (n : Nat) (objs : List JVal) (s0 : Option Nat),
    t.ok = true → cs.drop n = t.flatten →
    ∃ s1, scanFrom loads cs n t.flatten ⟨objs, 0, s0⟩ =
      ⟨objs ++ t.objects.filterMap loads, 0, s1⟩ := by
  induction t with
  | nil =>
    intro n objs s0 _ _
    exact ⟨s0, by simp [TopSeq.flatten, TopSeq.objects, scanFrom]⟩
  | ch c r ih =>
    intro n objs s0 hok hdrop
    simp only [TopSeq.ok, Bool.and_eq_true, decide_eq_true_eq] at hok
    simp only [TopSeq.flatten, scanFrom]
    rw [scanStep_other loads cs _ n c hok.1.1 hok.1.2]
    have hdrop' : cs.drop (n + 1) = r.flatten := by
      rw [← List.tail_drop, hdrop]
      rfl
    simpa [TopSeq.objects] using ih (n + 1) objs s0 hok.2 hdrop'
  | obj inner r ih =>
    intro n objs s0 hok hdrop
    simp only [TopSeq.ok, Bool.and_eq_true] at hok
    simp only [TopSeq.flatten, scanFrom]
    have hstep : scanStep loads cs ⟨objs, 0, s0⟩ n '\x7b' = ⟨objs, 1, some n⟩ := by
      simp [scanStep]
    rw [hstep, scanFrom_append]
    rw [scanFrom_bal loads cs inner (n + 1) ⟨objs, 1, some n⟩ hok.1 (by simp)]
    simp only [scanFrom]
    have hblock : cs.drop n =
        ('\x7b' :: (inner.flatten ++ ['\x7d'])) ++ r.flatten := by
      rw [hdrop]
      simp [TopSeq.flatten]
    have hslice : (cs.drop n).take (n + 1 + inner.flatten.length + 1 - n) =
        '\x7b' :: (inner.flatten ++ ['\x7d']) := by
      have harith : n + 1 + inner.flatten.length + 1 - n =
          ('\x7b' :: (inner.flatten ++ ['\x7d'])).length := by
        simp [List.length_cons, List.length_append]
        omega
      rw [harith, hblock, List.take_left]
    have hstep2 : scanStep loads cs ⟨objs, 1, some n⟩
        (n + 1 + inner.flatten.length) '\x7d' =
        (match loads ('\x7b' :: (inner.flatten ++ ['\x7d'])) with
         | some v => ⟨objs ++ [v], 0, some n⟩
         | none => ⟨objs, 0, some n⟩) := by
      have h7b : ('\x7d' : Char) ≠ '\x7b' := by decide
      simp only [scanStep, if_neg h7b, if_pos rfl]
      norm_num
      rw [hslice]
    rw [hstep2]
    have hdropr : cs.drop (n + 1 + inner.flatten.length + 1) = r.flatten := by
      have h1 : cs.drop (n + 1 + inner.flatten.length + 1) =
          (cs.drop n).drop (1 + inner.flatten.length + 1) := by
        rw [List.drop_drop]
        congr 1
        omega
      rw [h1, hblock]
      have h2 : 1 + inner.flatten.length + 1 =
          ('\x7b' :: (inner.flatten ++ ['\x7d'])).length := by
        simp [List.length_cons, List.length_append]
        omega
      rw [h2, List.drop_left]
    cases hload : loads ('\x7b' :: (inner.flatten ++ ['\x7d'])) with
    | some v =>
      obtain ⟨s1, hs⟩ := ih (n + 1 + inner.flatten.length + 1) (objs ++ [v])
        (some n) hok.2 hdropr
      refine ⟨s1, ?_⟩
      simp only [hload]
      rw [hs]
      simp [TopSeq.objects, List.filterMap_cons, hload]
    | none =>
      obtain ⟨s1, hs⟩ := ih (n + 1 + inner.flatten.length + 1) objs
        (some n) hok.2 hdropr
      refine ⟨s1, ?_⟩
      simp only [hload]
      rw [hs]
      simp [TopSeq.objects, List.filterMap_cons, hload]

/-- Build a prose run (each character of `s`, then `rest`). -/
def mkProse (s : String) (rest : TopSeq) : TopSeq :=
  s.data.foldr TopSeq.ch rest

/-- Build a brace-free block interior from its characters. -/
def mkBal (s : String) : Bal :=
  s.data.foldr Bal.ch .nil

/-- Claim C2 (amended).  For every parser `loads` standing in for
`json.loads`: (1) on any input whose cleaned text (fences stripped
case-insensitively, then stripped of outer whitespace) is an alternation
of brace-free prose and balanced brace blocks, the extractor returns, in
order of appearance, exactly the parses of the top-level blocks that
`loads` accepts — so a balanced malformed fragment is silently discarded
and never prevents extraction of later valid objects; (2) on any input at
all, if nothing parses the result is the empty list.  (The original
claim's unrestricted "interleaved with prose or malformed fragments" is
false: a fragment with an unmatched brace derails the depth counter — see
the counterexample.) -/
theorem C2_extractor_characterization (loads : List Char → Option JVal) :
    (∀ (text : String) (t : TopSeq), t.ok = true → cleanText text = t.flatten →
      extractJsonObjects loads text = t.objects.filterMap loads)
    ∧ (∀ text : String, (∀ seg, loads seg = none) →
      extractJsonObjects loads text = []) := by
  constructor
  · intro text t hok hclean
    unfold extractJsonObjects
    obtain ⟨s1, hs⟩ := scanFrom_topSeq loads (cleanText text) t 0 [] none hok
      (by simpa using hclean)
    simp only [hclean] at hs ⊢
    rw [hs]
    simp
  · intro text h
    unfold extractJsonObjects
    rw [scanFrom_objs_none loads (cleanText text) h]

/-- Witness for C2: a concrete generator output with an uppercase-tagged
code fence, prose, a balanced-but-malformed fragment between two valid
objects; the extractor returns exactly the two valid objects in order. -/
theorem C2_witness :
    extractJsonObjects jsonLoads
      "hi! \x60\x60\x60JSON\x7b\"a\": 1\x7d\x60\x60\x60 \x7bx\x7d \x7b\"b\":2\x7d"
      = [JVal.jobj [("a", JVal.jnum 1)], JVal.jobj [("b", JVal.jnum 2)]] := by
  have h := (C2_extractor_characterization jsonLoads).1
    "hi! \x60\x60\x60JSON\x7b\"a\": 1\x7d\x60\x60\x60 \x7bx\x7d \x7b\"b\":2\x7d"
    (mkProse "hi! " (.obj (mkBal "\"a\": 1") (mkProse " " (.obj (mkBal "x")
      (mkProse " " (.obj (mkBal "\"b\":2") .nil))))))
    (by decide) (by rfl)
  rw [h]
  rfl

/-- Counterexample to C2 as stated: the input text contains exactly one
well-formed brace-delimited JSON object, preceded by a malformed fragment
that is a stray closing brace; the claim requires the object to be
extracted, but the stray brace drives `brace_level` negative and the
extractor returns the empty list. -/
theorem C2_counterexample :
    extractJsonObjects jsonLoads "\x7d \x7b\"a\": 1\x7d" = []
    ∧ jsonLoads "\x7b\"a\": 1\x7d".data = some (JVal.jobj [("a", JVal.jnum 1)])
    ∧ cleanText "\x7d \x7b\"a\": 1\x7d" =
        '\x7d' :: ' ' :: "\x7b\"a\": 1\x7d".data := by
  refine ⟨by rfl, by rfl, by rfl⟩

theorem foldl_dPop_cons (ks : List String) : ∀ (k0 : String) (v0 : ℚ × List String)
    (rest : CacheState), (∀ k ∈ ks, k ≠ k0) →
    ks.foldl (fun acc k => dPop acc k) ((k0, v0) :: rest) =
      (k0, v0) :: ks.foldl (fun acc k => dPop acc k) rest := by
  induction ks with
  | nil => intro k0 v0 rest _; rfl
  | cons k ks ih =>
    intro k0 v0 rest hne
    have hk : ¬ (k0 = k) := fun h => hne k (by simp) h.symm
    simp only [List.foldl_cons, dPop, if_neg hk]
    exact ih k0 v0 (dPop rest k) (fun k' hk' => hne k' (by simp [hk']))

theorem cacheInvalidate_eq_filter (c : CacheState) (pre : String) :
    cacheInvalidate c pre = c.filter (fun kv => !(pyStartsWith kv.1 pre)) := by
  induction c with
  | nil => rfl
  | cons hd tl ih =>
    obtain ⟨k0, v0⟩ := hd
    unfold cacheInvalidate at ih ⊢
    simp only [dKeys, List.map_cons, List.filter_cons]
    by_cases hp : pyStartsWith k0 pre
    · simp only [hp, if_pos, Bool.not_true, List.foldl_cons, dPop, if_pos rfl]
      simpa using ih
    · have hp' : pyStartsWith k0 pre = false := by simp [hp]
      simp only [hp', Bool.not_false, if_pos, Bool.false_eq_true, if_neg]
      rw [foldl_dPop_cons _ k0 v0 tl
        (fun k hk => by
          intro hkk
          subst hkk
          have := List.of_mem_filter hk
          simp [hp'] at this)]
      simpa using ih
theorem dGet_filter_matching (c : CacheState) (pre k : String)
    (hk : pyStartsWith k pre = true) :
    dGet (c.filter fun kv => !(pyStartsWith kv.1 pre)) k = none := by
  induction c with
  | nil => rfl
  | cons hd tl ih =>
    obtain ⟨k0, v0⟩ := hd
    simp only [List.filter_cons]
    by_cases hke : k0 = k
    · subst hke
      simp only [hk, Bool.not_true, Bool.false_eq_true, if_neg]
      exact ih
    · by_cases hp : pyStartsWith k0 pre
      · simp only [hp, Bool.not_true, Bool.false_eq_true, if_neg]
        exact ih
      · have hp' : pyStartsWith k0 pre = false := by simp [hp]
        simp only [hp', Bool.not_false, if_pos, dGet, if_neg hke]
        exact ih

theorem dGet_filter_other (c : CacheState) (pre k : String)
    (hk : pyStartsWith k pre = false) :
    dGet (c.filter fun kv => !(pyStartsWith kv.1 pre)) k = dGet c k := by
  induction c with
  | nil => rfl
  | cons hd tl ih =>
    obtain ⟨k0, v0⟩ := hd
    simp only [List.filter_cons]
    by_cases hke : k0 = k
    · subst hke
      simp only [hk, Bool.not_false, if_pos, dGet, if_pos rfl]
    · by_cases hp : pyStartsWith k0 pre
      · simp only [hp, Bool.not_true, Bool.false_eq_true, if_neg, dGet, if_neg hke]
        exact ih
      · have hp' : pyStartsWith k0 pre = false := by simp [hp]
        simp only [hp', Bool.not_false, if_pos, dGet, if_neg hke]
        exact ih

/-- Claim C8.  `_cache_invalidate(prefix)` removes exactly the entries whose
key starts with the prefix: afterwards no such key resolves, and every
other key resolves to its original `(timestamp, value)` entry. -/
theorem C8_invalidate_frame (c : CacheState) (pre : String) :
    (∀ k, pyStartsWith k pre = true → dGet (cacheInvalidate c pre) k = none)
    ∧ (∀ k, pyStartsWith k pre = false →
        dGet (cacheInvalidate c pre) k = dGet c k) := by
  rw [cacheInvalidate_eq_filter]
  exact ⟨fun k hk => dGet_filter_matching c pre k hk,
         fun k hk => dGet_filter_other c pre k hk⟩

/-- Witness for C8 on a concrete cache: the two `deployments::` entries are
gone, the `pods::demo` entry survives with its timestamp and value. -/
theorem C8_witness :
    pyStartsWith "deployments::demo" "deployments::" = true
    ∧ pyStartsWith "pods::demo" "deployments::" = false
    ∧ dGet (cacheInvalidate
        [("deployments::demo", ((1 : ℚ), ["a"])),
         ("pods::demo", ((2 : ℚ), ["p"])),
         ("deployments::other", ((3 : ℚ), ["b"]))] "deployments::")
        "deployments::demo" = none
    ∧ dGet (cacheInvalidate
        [("deployments::demo", ((1 : ℚ), ["a"])),
         ("pods::demo", ((2 : ℚ), ["p"])),
         ("deployments::other", ((3 : ℚ), ["b"]))] "deployments::")
        "pods::demo" =
      dGet [("deployments::demo", ((1 : ℚ), ["a"])),
            ("pods::demo", ((2 : ℚ), ["p"])),
            ("deployments::other", ((3 : ℚ), ["b"]))] "pods::demo" := by
  refine ⟨by rfl, by rfl, ?_, ?_⟩
  · exact (C8_invalidate_frame _ "deployments::").1 "deployments::demo" (by rfl)
  · exact (C8_invalidate_frame _ "deployments::").2 "pods::demo" (by rfl)

theorem cacheGet_fresh (c : CacheState) (k : String) (ts : ℚ)
    (v : List String) (d : ℚ) (h : dGet c k = some (ts, v)) (hd : d ≤ 29) :
    cacheGet (ts + d) c k = (some v, c) := by
  unfold cacheGet
  rw [h]
  dsimp only
  have hle : ¬ (ts + d - ts > cacheTTL) := by
    unfold cacheTTL
    intro hgt
    have : d > 30 := by linarith
    linarith
  rw [if_neg hle]

theorem cacheGet_stale (c : CacheState) (k : String) (ts : ℚ)
    (v : List String) (d : ℚ) (h : dGet c k = some (ts, v)) (hd : 31 ≤ d) :
    cacheGet (ts + d) c k = (none, dPop c k) := by
  unfold cacheGet
  rw [h]
  dsimp only
  have hgt : ts + d - ts > cacheTTL := by
    unfold cacheTTL
    linarith
  rw [if_pos hgt]

/-- Claim C5.  A name list stored under a key at time `T` is returned by a
lookup at `T + d` for any `d ≤ 29` with the cache untouched (and, for the
namespaces helper, with no cluster fetch); at `T + d` for any `d ≥ 31` the
entry is treated as absent and popped, and the namespaces helper performs a
fresh fetch and stores the fresh list under the lookup time. -/
theorem C5_cache_ttl :
    (∀ (c : CacheState) (k : String) (ts : ℚ) (v : List String) (d : ℚ),
      dGet c k = some (ts, v) → d ≤ 29 → cacheGet (ts + d) c k = (some v, c))
    ∧ (∀ (c : CacheState) (k : String) (ts : ℚ) (v : List String) (d : ℚ),
      dGet c k = some (ts, v) → 31 ≤ d →
      cacheGet (ts + d) c k = (none, dPop c k))
    ∧ (∀ (c : CacheState) (ts : ℚ) (v : List String) (d : ℚ)
        (fetch : Option (List String)),
      dGet c "namespaces" = some (ts, v) → d ≤ 29 →
      listNamespacesCached (ts + d) c fetch = (v, c, false))
    ∧ (∀ (c : CacheState) (ts : ℚ) (v fresh : List String) (d : ℚ),
      dGet c "namespaces" = some (ts, v) → 31 ≤ d →
      listNamespacesCached (ts + d) c (some fresh) =
        (fresh, cacheSet (ts + d) (dPop c "namespaces") "namespaces" fresh, true)
      ∧ dGet (cacheSet (ts + d) (dPop c "namespaces") "namespaces" fresh)
          "namespaces" = some (ts + d, fresh)) := by
  refine ⟨cacheGet_fresh, cacheGet_stale, ?_, ?_⟩
  · intro c ts v d fetch h hd
    unfold listNamespacesCached
    rw [cacheGet_fresh c "namespaces" ts v d h hd]
  · intro c ts v fresh d h hd
    constructor
    · unfold listNamespacesCached
      rw [cacheGet_stale c "namespaces" ts v d h hd]
    · exact dGet_dSet _ _ _

/-- Witness for C5: an entry stored at time 100 is served at time 129 with
no fetch, and at time 131 a fresh fetch replaces it. -/
theorem C5_witness :
    cacheGet (100 + 29) [("namespaces", ((100 : ℚ), ["default"]))] "namespaces"
      = (some ["default"], [("namespaces", ((100 : ℚ), ["default"]))])
    ∧ listNamespacesCached (100 + 31)
        [("namespaces", ((100 : ℚ), ["default"]))] (some ["default", "prod"])
      = (["default", "prod"],
         cacheSet (100 + 31) (dPop [("namespaces", ((100 : ℚ), ["default"]))]
           "namespaces") "namespaces" ["default", "prod"], true) := by
  exact ⟨C5_cache_ttl.1 [("namespaces", ((100 : ℚ), ["default"]))]
           "namespaces" 100 ["default"] 29 rfl (by norm_num),
         (C5_cache_ttl.2.2.2 [("namespaces", ((100 : ℚ), ["default"]))]
           100 ["default"] ["default", "prod"] 31 rfl (by norm_num)).1⟩

theorem askLlmRetry_spec (parse : JVal → Option String)
    (attempts : Nat → AttemptRes) :
    (askLlmRetry parse attempts).2.1 ≤ 2
    ∧ (tryAttempt parse (attempts 0) = none →
       (askLlmRetry parse attempts).2.1 = 2
        ∧ (askLlmRetry parse attempts).2.2 = [3])
    ∧ (tryAttempt parse (attempts 0) = none →
       tryAttempt parse (attempts 1) = none →
       askLlmRetry parse attempts = ("", 2, [3]))
    ∧ (∀ s, tryAttempt parse (attempts 0) = some s →
       askLlmRetry parse attempts = (s, 1, [])) := by
  unfold askLlmRetry
  cases h0 : tryAttempt parse (attempts 0) with
  | some s => simp [h0]
  | none =>
    cases h1 : tryAttempt parse (attempts 1) with
    | some s => simp [h0, h1]
    | none => simp [h0, h1]

/-- Claim C6.  Both retrying generator clients (`agentcpp.py` and
`agent-test.py`) make at most 2 attempts; after a first failed attempt they
sleep the fixed 3-second backoff and make exactly one more; if both
attempts fail the result is the empty string; a successful first attempt
returns its text immediately.  (Both functions are total: no exception
escapes the call.) -/
theorem C6_generator_retry (attempts : Nat → AttemptRes) :
    ((askLlmCpp attempts).2.1 ≤ 2
     ∧ (tryAttempt parseLlmResp (attempts 0) = none →
        (askLlmCpp attempts).2.1 = 2 ∧ (askLlmCpp attempts).2.2 = [3])
     ∧ (tryAttempt parseLlmResp (attempts 0) = none →
        tryAttempt parseLlmResp (attempts 1) = none →
        askLlmCpp attempts = ("", 2, [3]))
     ∧ (∀ s, tryAttempt parseLlmResp (attempts 0) = some s →
        askLlmCpp attempts = (s, 1, [])))
    ∧ ((askLlmTest attempts).2.1 ≤ 2
     ∧ (tryAttempt parseLlmRespTest (attempts 0) = none →
        (askLlmTest attempts).2.1 = 2 ∧ (askLlmTest attempts).2.2 = [3])
     ∧ (tryAttempt parseLlmRespTest (attempts 0) = none →
        tryAttempt parseLlmRespTest (attempts 1) = none →
        askLlmTest attempts = ("", 2, [3]))
     ∧ (∀ s, tryAttempt parseLlmRespTest (attempts 0) = some s →
        askLlmTest attempts = (s, 1, []))) :=
  ⟨askLlmRetry_spec parseLlmResp attempts,
   askLlmRetry_spec parseLlmRespTest attempts⟩

/-- Witness for C6: with the backend unreachable on both attempts, both
clients return the empty string after exactly 2 attempts and one 3-second
backoff. -/
theorem C6_witness :
    askLlmCpp (fun _ => AttemptRes.netFail) = ("", 2, [3])
    ∧ askLlmTest (fun _ => AttemptRes.netFail) = ("", 2, [3]) :=
  ⟨(C6_generator_retry (fun _ => AttemptRes.netFail)).1.2.2.1 rfl rfl,
   (C6_generator_retry (fun _ => AttemptRes.netFail)).2.2.2.1 rfl rfl⟩


theorem dGet_eq_none_of_not_mem {α : Type} (l : List (String × α)) (k : String)
    (h : k ∉ dKeys l) : dGet l k = none := by
  induction l with
  | nil => rfl
  | cons hd tl ih =>
    obtain ⟨k0, v0⟩ := hd
    simp only [dKeys, List.map_cons, List.mem_cons] at h
    push_neg at h
    simp only [dGet]
    rw [if_neg (fun hh => h.1 hh.symm)]
    exact ih h.2

theorem dGet_dPop_nodup {α : Type} (l : List (String × α)) (k : String)
    (h : (dKeys l).Nodup) : dGet (dPop l k) k = none := by
  induction l with
  | nil => rfl
  | cons hd tl ih =>
    obtain ⟨k0, v0⟩ := hd
    simp only [dKeys, List.map_cons, List.nodup_cons] at h
    by_cases hk : k0 = k
    · subst hk
      simp only [dPop, if_pos rfl]
      exact dGet_eq_none_of_not_mem tl k0 h.1
    · simp only [dPop, if_neg hk, dGet, if_neg hk]
      exact ih h.2

/-- Claim C7.  Both normalizers are idempotent on an already-normalized
candidate: when the tool is a known string, the `args` container is a dict,
and `namespace` is already `"default"` exactly when the variant's schema
check declares it (absent otherwise), re-running the normalizer returns the
identical candidate. -/
theorem C7_normalizer_idempotent :
    (∀ (reg : Registry) (kvs argFs : List (String × JVal)) (t : String),
      dGet kvs "tool" = some (JVal.jstr t) →
      (dGet reg t).isSome = true →
      dGet kvs "args" = some (JVal.jobj argFs) →
      (toolRequiresNamespace reg t = true →
        dGet argFs "namespace" = some (JVal.jstr "default")) →
      (toolRequiresNamespace reg t = false →
        dGet argFs "namespace" = none) →
      normalizeAgent reg (JVal.jobj kvs) = some kvs)
    ∧ (∀ (reg : RegistryCpp) (kvs argFs : List (String × JVal)) (t : String),
      dGet kvs "tool" = some (JVal.jstr t) →
      (dGet reg t).isSome = true →
      dGet kvs "args" = some (JVal.jobj argFs) →
      (toolRequiresNamespaceCpp reg t = true →
        dGet argFs "namespace" = some (JVal.jstr "default")) →
      (toolRequiresNamespaceCpp reg t = false →
        dGet argFs "namespace" = none) →
      normalizeCpp reg (JVal.jobj kvs) = some kvs) := by
  constructor
  · intro reg kvs argFs t h2 hreg h3 h4 h5
    simp only [normalizeAgent, h2, h3, Option.isSome_some, if_true]
    cases hreq : toolRequiresNamespace reg t
    · simp only [hreq, Bool.false_eq_true, if_false]
      rw [dPop_absent argFs "namespace" (h5 hreq)]
      rw [dGet_dSet_self kvs "args" (JVal.jobj argFs) h3, h2]
      simp [hreg]
    · simp only [hreq, if_true]
      rw [h4 hreq]
      simp [h2, hreg, JVal.truthy,
        (show ("default" : String).isEmpty = false from rfl),
        dGet_dSet_self kvs "args" (JVal.jobj argFs) h3]
  · intro reg kvs argFs t h2 hreg h3 h4 h5
    simp only [normalizeCpp, h2, h3, Option.isSome_some, if_true]
    cases hreq : toolRequiresNamespaceCpp reg t
    · simp only [hreq, Bool.false_eq_true, if_false]
      rw [dPop_absent argFs "namespace" (h5 hreq)]
      rw [dGet_dSet_self kvs "args" (JVal.jobj argFs) h3, h2]
      simp [hreg]
    · simp only [hreq, if_true]
      have hsd : dSetdefault argFs "namespace" (JVal.jstr "default") = argFs := by
        unfold dSetdefault
        rw [h4 hreq]
        rfl
      rw [hsd]
      rw [dGet_dSet_self kvs "args" (JVal.jobj argFs) h3, h2]
      simp [hreg]

/-- Witness for C7: re-normalizing an already-normalized `list_pods`
candidate (schema declares `namespace`, set to `"default"`) and an
already-normalized `get_nodes` candidate (no `namespace` in the schema,
none supplied) returns the identical candidates. -/
theorem C7_witness :
    normalizeAgent [("list_pods", ⟨[("namespace", "str")], ""⟩)]
      (JVal.jobj [("tool", JVal.jstr "list_pods"),
                  ("args", JVal.jobj [("namespace", JVal.jstr "default")])])
      = some [("tool", JVal.jstr "list_pods"),
              ("args", JVal.jobj [("namespace", JVal.jstr "default")])]
    ∧ normalizeCpp [("get_nodes", [])]
      (JVal.jobj [("tool", JVal.jstr "get_nodes"), ("args", JVal.jobj [])])
      = some [("tool", JVal.jstr "get_nodes"), ("args", JVal.jobj [])] := by
  constructor
  · exact C7_normalizer_idempotent.1 _ _ _ "list_pods" rfl rfl rfl
      (fun _ => rfl) (fun h => nomatch h)
  · exact C7_normalizer_idempotent.2 _ _ _ "get_nodes" rfl rfl rfl
      (fun h => nomatch h) (fun _ => rfl)

theorem dGet_dSet_ne {α : Type} (l : List (String × α)) (k k' : String) (v : α)
    (h : ¬ (k = k')) : dGet (dSet l k v) k' = dGet l k' := by
  induction l with
  | nil => simp [dSet, dGet, h]
  | cons hd tl ih =>
    obtain ⟨k0, v0⟩ := hd
    by_cases hk : k0 = k
    · subst hk
      simp [dSet, dGet, h, ih]
    · simp only [dSet, if_neg hk, dGet]
      by_cases hk' : k0 = k'
      · simp [hk']
      · simp [hk', ih]

/-- The argument dict the normalizers read from a raw candidate (`args`
when present as a dict, else the freshly-inserted empty dict). -/
def inArgsOf (kvs : List (String × JVal)) : List (String × JVal) :=
  match dGet kvs "args" with
  | some (JVal.jobj fs) => fs
  | _ => []

/-- The `namespace` transformation `agent.py` applies to the argument
dict: fill with `"default"` when the schema declares `namespace` and it is
absent or falsy, keep a truthy value, pop it when undeclared. -/
def agentNsTransform (reg : Registry) (t : String)
    (fs : List (String × JVal)) : List (String × JVal) :=
  if toolRequiresNamespace reg t then
    match dGet fs "namespace" with
    | none => dSet fs "namespace" (JVal.jstr "default")
    | some v => if v.truthy then fs else dSet fs "namespace" (JVal.jstr "default")
  else dPop fs "namespace"

/-- The `namespace` transformation of the `agentcpp.py` variant:
`setdefault` when declared, pop when not. -/
def cppNsTransform (reg : RegistryCpp) (t : String)
    (fs : List (String × JVal)) : List (String × JVal) :=
  if toolRequiresNamespaceCpp reg t then
    dSetdefault fs "namespace" (JVal.jstr "default")
  else dPop fs "namespace"

/-- The full output candidate of `agent.py`'s normalizer on a kept
candidate. -/
def normAgentOut (reg : Registry) (kvs : List (String × JVal)) (t : String) :
    List (String × JVal) :=
  let kvs1 := match dGet kvs "args" with
    | some (JVal.jobj _) => kvs
    | _ => dSet kvs "args" (JVal.jobj [])
  dSet kvs1 "args" (JVal.jobj (agentNsTransform reg t (inArgsOf kvs)))

/-- The full output candidate of the `agentcpp.py` normalizer on a kept
candidate. -/
def normCppOut (reg : RegistryCpp) (kvs : List (String × JVal)) (t : String) :
    List (String × JVal) :=
  let kvs1 := match dGet kvs "args" with
    | some (JVal.jobj _) => kvs
    | _ => dSet kvs "args" (JVal.jobj [])
  dSet kvs1 "args" (JVal.jobj (cppNsTransform reg t (inArgsOf kvs)))

theorem normalizeAgent_known (reg : Registry) (kvs : List (String × JVal))
    (t : String) (h2 : dGet kvs "tool" = some (JVal.jstr t))
    (hreg : (dGet reg t).isSome = true) :
    normalizeAgent reg (JVal.jobj kvs) = some (normAgentOut reg kvs t) := by
  cases hargs : dGet kvs "args" with
  | none =>
    simp [normalizeAgent, h2, hreg, hargs, dGet_dSet, dGet_dSet_ne,
      normAgentOut, agentNsTransform, inArgsOf]
  | some av =>
    cases av <;>
      simp [normalizeAgent, h2, hreg, hargs, dGet_dSet, dGet_dSet_ne,
        normAgentOut, agentNsTransform, inArgsOf]

theorem normalizeCpp_known (reg : RegistryCpp) (kvs : List (String × JVal))
    (t : String) (h2 : dGet kvs "tool" = some (JVal.jstr t))
    (hreg : (dGet reg t).isSome = true) :
    normalizeCpp reg (JVal.jobj kvs) = some (normCppOut reg kvs t) := by
  cases hargs : dGet kvs "args" with
  | none =>
    simp [normalizeCpp, h2, hreg, hargs, dGet_dSet, dGet_dSet_ne,
      normCppOut, cppNsTransform, inArgsOf]
  | some av =>
    cases av <;>
      simp [normalizeCpp, h2, hreg, hargs, dGet_dSet, dGet_dSet_ne,
        normCppOut, cppNsTransform, inArgsOf]

theorem normAgentOut_args (reg : Registry) (kvs : List (String × JVal))
    (t : String) :
    dGet (normAgentOut reg kvs t) "args" =
      some (JVal.jobj (agentNsTransform reg t (inArgsOf kvs))) := by
  unfold normAgentOut
  exact dGet_dSet _ _ _

theorem normCppOut_args (reg : RegistryCpp) (kvs : List (String × JVal))
    (t : String) :
    dGet (normCppOut reg kvs t) "args" =
      some (JVal.jobj (cppNsTransform reg t (inArgsOf kvs))) := by
  unfold normCppOut
  exact dGet_dSet _ _ _

theorem dGet_append {α : Type} (l1 l2 : List (String × α)) (k : String) :
    dGet (l1 ++ l2) k =
      match dGet l1 k with
      | some v => some v
      | none => dGet l2 k := by
  induction l1 with
  | nil => simp [dGet]
  | cons hd tl ih =>
    obtain ⟨k0, v0⟩ := hd
    by_cases hk : k0 = k
    · simp [dGet, hk]
    · simp [dGet, hk, ih]

/-- Claim C3 (amended).  In `agent.py`'s normalizer the claim holds as
stated: for a known tool, when the schema declares `namespace` and the
candidate's arguments omit it or carry a falsy (in particular empty) value
it is set to `"default"`, and when the schema does not declare it any
supplied `namespace` is removed.  The `agentcpp.py`/`agent-test.py`
normalizer differs on one point: it uses `setdefault`, so only an absent
`namespace` is defaulted, while a present (even empty) value is left
unchanged; undeclared `namespace` is removed as in the claim. -/
theorem C3_namespace_defaulting :
    (∀ (reg : Registry) (kvs : List (String × JVal)) (t : String),
      dGet kvs "tool" = some (JVal.jstr t) →
      (dGet reg t).isSome = true →
      (dKeys (inArgsOf kvs)).Nodup →
      ∃ out, normalizeAgent reg (JVal.jobj kvs) = some out
        ∧ dGet out "args" =
            some (JVal.jobj (agentNsTransform reg t (inArgsOf kvs)))
        ∧ (toolRequiresNamespace reg t = true →
            (dGet (inArgsOf kvs) "namespace" = none
              ∨ ∃ v, dGet (inArgsOf kvs) "namespace" = some v
                  ∧ v.truthy = false) →
            dGet (agentNsTransform reg t (inArgsOf kvs)) "namespace"
              = some (JVal.jstr "default"))
        ∧ (toolRequiresNamespace reg t = false →
            dGet (agentNsTransform reg t (inArgsOf kvs)) "namespace" = none))
    ∧ (∀ (reg : RegistryCpp) (kvs : List (String × JVal)) (t : String),
      dGet kvs "tool" = some (JVal.jstr t) →
      (dGet reg t).isSome = true →
      (dKeys (inArgsOf kvs)).Nodup →
      ∃ out, normalizeCpp reg (JVal.jobj kvs) = some out
        ∧ dGet out "args" =
            some (JVal.jobj (cppNsTransform reg t (inArgsOf kvs)))
        ∧ (toolRequiresNamespaceCpp reg t = true →
            dGet (inArgsOf kvs) "namespace" = none →
            dGet (cppNsTransform reg t (inArgsOf kvs)) "namespace"
              = some (JVal.jstr "default"))
        ∧ (toolRequiresNamespaceCpp reg t = true →
            ∀ v, dGet (inArgsOf kvs) "namespace" = some v →
            dGet (cppNsTransform reg t (inArgsOf kvs)) "namespace" = some v)
        ∧ (toolRequiresNamespaceCpp reg t = false →
            dGet (cppNsTransform reg t (inArgsOf kvs)) "namespace" = none)) := by
  constructor
  · intro reg kvs t h2 hreg hnd
    refine ⟨normAgentOut reg kvs t, normalizeAgent_known reg kvs t h2 hreg,
      normAgentOut_args reg kvs t, ?_, ?_⟩
    · intro hreq hns
      unfold agentNsTransform
      rw [if_pos (by simp [hreq])]
      rcases hns with hnone | ⟨v, hv, hfalsy⟩
      · rw [hnone]
        exact dGet_dSet _ _ _
      · rw [hv]
        dsimp only
        rw [hfalsy]
        simp only [Bool.false_eq_true, if_false]
        exact dGet_dSet _ _ _
    · intro hreq
      unfold agentNsTransform
      rw [if_neg (by simp [hreq])]
      exact dGet_dPop_nodup _ _ hnd
  · intro reg kvs t h2 hreg hnd
    refine ⟨normCppOut reg kvs t, normalizeCpp_known reg kvs t h2 hreg,
      normCppOut_args reg kvs t, ?_, ?_, ?_⟩
    · intro hreq hnone
      unfold cppNsTransform
      rw [if_pos (by simp [hreq])]
      unfold dSetdefault
      rw [hnone]
      simp only [Option.isSome_none, Bool.false_eq_true, if_false]
      rw [dGet_append, hnone]
      simp [dGet]
    · intro hreq v hv
      unfold cppNsTransform
      rw [if_pos (by simp [hreq])]
      unfold dSetdefault
      rw [hv]
      simpa using hv
    · intro hreq
      unfold cppNsTransform
      rw [if_neg (by simp [hreq])]
      exact dGet_dPop_nodup _ _ hnd

/-- Witness for C3: a `list_pods` candidate whose schema declares
`namespace` and whose arguments carry the empty string is normalized by
`agent.py` to `namespace = "default"`. -/
theorem C3_witness :
    dGet (agentNsTransform [("list_pods", ⟨[("namespace", "str")], ""⟩)]
      "list_pods"
      (inArgsOf [("tool", JVal.jstr "list_pods"),
                 ("args", JVal.jobj [("namespace", JVal.jstr "")])]))
      "namespace" = some (JVal.jstr "default") := by
  obtain ⟨out, hnorm, hargs, hdef, _⟩ :=
    C3_namespace_defaulting.1 [("list_pods", ⟨[("namespace", "str")], ""⟩)]
      [("tool", JVal.jstr "list_pods"),
       ("args", JVal.jobj [("namespace", JVal.jstr "")])]
      "list_pods" rfl rfl (by simp [inArgsOf, dGet, dKeys])
  exact hdef rfl (Or.inr ⟨JVal.jstr "", rfl, rfl⟩)

/-- Counterexample to C3 as stated: in the `agentcpp.py` normalizer (one of
the two cited implementations) a candidate for a tool whose schema declares
`namespace` supplies the empty value; the claim requires normalization to
set it to `"default"`, but `setdefault` leaves the empty string in
place. -/
theorem C3_counterexample :
    toolRequiresNamespaceCpp [("list_pods", [("namespace", "str")])]
      "list_pods" = true
    ∧ normalizeCpp [("list_pods", [("namespace", "str")])]
        (JVal.jobj [("tool", JVal.jstr "list_pods"),
                    ("args", JVal.jobj [("namespace", JVal.jstr "")])])
      = some [("tool", JVal.jstr "list_pods"),
              ("args", JVal.jobj [("namespace", JVal.jstr "")])]
    ∧ JVal.jstr "" ≠ JVal.jstr "default" := by
  refine ⟨rfl, rfl, ?_⟩
  intro h
  injection h with h'
  exact absurd h' (by decide)

theorem resourceCheck_queries (resp : Query → List Entry) (q : Query)
    (args : List (String × JVal)) (aliasKey : String)
    (mkErr : JVal → JVal → ErrMsg) (sugKey : String) (nsScope : JVal)
    (st : VAcc) : (resourceCheck resp q args aliasKey mkErr sugKey nsScope st).1.2.2
      = st.2.2 ++ [q] := by
  obtain ⟨errs, sugg, qs⟩ := st
  unfold resourceCheck
  cases namesOf (resp q)
  · rfl
  · cases pyOr (dGet args "name") (dGet args aliasKey)
    · rfl
    · dsimp only
      split <;> rfl

theorem resourceCheck_exflag (resp : Query → List Entry) (q : Query)
    (args : List (String × JVal)) (aliasKey : String)
    (mkErr : JVal → JVal → ErrMsg) (sugKey : String) (nsScope : JVal)
    (st : VAcc) : (resourceCheck resp q args aliasKey mkErr sugKey nsScope st).2
      = (namesOf (resp q)).isNone := by
  obtain ⟨errs, sugg, qs⟩ := st
  unfold resourceCheck
  cases namesOf (resp q)
  · rfl
  · cases pyOr (dGet args "name") (dGet args aliasKey)
    · rfl
    · dsimp only
      split <;> rfl

/-- The cluster queries `validate_args` issues, as a function of the
candidate and responses alone (never of the registry or of previously
accumulated errors): the namespace query whenever `namespace` is among the
arguments, then the pod, deployment and service list queries selected by
the tool-name patterns, each issued unless an earlier check of the same
`try` block raised. -/
def queryTrace (resp : Query → List Entry) (toolName : String)
    (args : List (String × JVal)) : List Query :=
  let q0 : List Query :=
    match dGet args "namespace" with
    | none => []
    | some _ => [Query.qNamespaces]
  let nsScope := (dGet args "namespace").getD (JVal.jstr "default")
  let podPat := (strHasSub "pod" toolName ∨ strHasSub "pods" toolName) ∧
      ¬ strHasSub "create" toolName
  let depPat := (strHasSub "deployment" toolName ∨
      strHasSub "deployments" toolName) ∧ ¬ strHasSub "create" toolName
  let svcPat := (strHasSub "service" toolName ∨ strHasSub "svc" toolName) ∧
      ¬ strHasSub "create" toolName
  let p1 : List Query × Bool :=
    if podPat then ([Query.qPods nsScope],
      (namesOf (resp (Query.qPods nsScope))).isNone)
    else ([], false)
  let p2 : List Query × Bool :=
    if ¬ p1.2 ∧ depPat then ([Query.qDeps nsScope],
      (namesOf (resp (Query.qDeps nsScope))).isNone)
    else ([], p1.2)
  let q3 : List Query :=
    if ¬ p2.2 ∧ svcPat then [Query.qSvcs nsScope] else []
  q0 ++ (p1.1 ++ (p2.1 ++ q3))

/-- Claim C4 (amended).  `validate_args` never stops issuing cluster-state
queries because an earlier check category failed: its query trace is a
function of the candidate's tool name, argument keys, namespace value and
the responses alone — the registry (which alone determines
unknown-argument and missing-argument failures) and every accumulated
error message are irrelevant to it.  Within the shared `try` of the
resource checks, only an exception (not an error verdict) stops the
remaining queries.  Error messages and suggestion lists from all performed
checks are still accumulated (the claim's accumulation half). -/
theorem C4_query_trace (reg : Registry) (resp : Query → List Entry)
    (fe : JVal → Bool) (ap : JVal → JVal) (toolName : String)
    (args : List (String × JVal)) :
    (validateArgs reg resp fe ap toolName args).queries
      = queryTrace resp toolName args := by
  unfold validateArgs queryTrace
  dsimp only
  simp only [apply_ite Prod.snd, apply_ite Prod.fst, resourceCheck_queries,
    resourceCheck_exflag]
  cases hns : dGet args "namespace"
  · dsimp only
    split_ifs <;> simp_all [List.append_assoc]
  · dsimp only
    cases hq : namesOf (resp Query.qNamespaces)
    · dsimp only
      split_ifs <;> simp_all [List.append_assoc]
    · dsimp only
      split_ifs <;> simp_all [List.append_assoc]

/-- Counterexample to C4 as stated: the candidate's namespace fails the
namespace-existence check (an error is recorded), yet the validator still
issues the pod-list cluster query afterwards — the cited "stop issuing
further cluster queries once one category has already failed" does not
exist in the code. -/
theorem C4_counterexample :
    (validateArgs [("list_pods", ⟨[("namespace", "str")], ""⟩)]
      (fun q => match q with
        | Query.qNamespaces => [Entry.withName "default"]
        | _ => [])
      (fun _ => false) (fun v => v) "list_pods"
      [("namespace", JVal.jstr "missing")]).errors
      = [ErrMsg.nsNotFound (JVal.jstr "missing")]
    ∧ (validateArgs [("list_pods", ⟨[("namespace", "str")], ""⟩)]
      (fun q => match q with
        | Query.qNamespaces => [Entry.withName "default"]
        | _ => [])
      (fun _ => false) (fun v => v) "list_pods"
      [("namespace", JVal.jstr "missing")]).queries
      = [Query.qNamespaces, Query.qPods (JVal.jstr "missing")] :=
  ⟨rfl, rfl⟩

theorem resourceCheck_errors_mem (resp : Query → List Entry) (q : Query)
    (args : List (String × JVal)) (aliasKey : String)
    (mkErr : JVal → JVal → ErrMsg) (sugKey : String) (nsScope : JVal)
    (st : VAcc) (x : ErrMsg)
    (hx : x ∈ (resourceCheck resp q args aliasKey mkErr sugKey nsScope st).1.1) :
    x ∈ st.1 ∨ ∃ tv, x = mkErr tv nsScope
      ∧ pyOr (dGet args "name") (dGet args aliasKey) = some tv := by
  obtain ⟨errs, sugg, qs⟩ := st
  unfold resourceCheck at hx
  revert hx
  cases namesOf (resp q)
  · exact fun hx => Or.inl hx
  · cases hpy : pyOr (dGet args "name") (dGet args aliasKey)
    · exact fun hx => Or.inl hx
    · dsimp only
      split
      · intro hx
        rcases List.mem_append.mp hx with h | h
        · exact Or.inl h
        · simp only [List.mem_singleton] at h
          exact Or.inr ⟨_, h, rfl⟩
      · exact fun hx => Or.inl hx

theorem mem_step1_errors (sig : List (String × String))
    (args : List (String × JVal)) :
    ∀ (acc : List ErrMsg × List (String × List String)) (x : ErrMsg),
    x ∈ (args.foldl (fun acc kv =>
        if (dGet sig kv.1).isSome then acc
        else (acc.1 ++ [.unexpectedArg kv.1],
              dSet acc.2 "expected_args" (dKeys sig))) acc).1 →
    x ∈ acc.1 ∨ ∃ k, x = ErrMsg.unexpectedArg k := by
  induction args with
  | nil => exact fun acc x hx => Or.inl hx
  | cons kv rest ih =>
    intro acc x hx
    simp only [List.foldl_cons] at hx
    by_cases hd : (dGet sig kv.1).isSome
    · rw [if_pos hd] at hx
      exact ih acc x hx
    · rw [if_neg hd] at hx
      rcases ih _ x hx with h | h
      · rcases List.mem_append.mp h with h' | h'
        · exact Or.inl h'
        · simp only [List.mem_singleton] at h'
          exact Or.inr ⟨_, h'⟩
      · exact Or.inr h

theorem ite_resourceCheck_errors_mem (c : Prop) [Decidable c] (b : Bool)
    (resp : Query → List Entry) (q : Query) (args : List (String × JVal))
    (aliasKey : String) (mkErr : JVal → JVal → ErrMsg) (sugKey : String)
    (nsScope : JVal) (st : VAcc) (x : ErrMsg)
    (hx : x ∈ (if c then resourceCheck resp q args aliasKey mkErr sugKey nsScope st
               else (st, b)).1.1) :
    x ∈ st.1 ∨ ∃ tv, x = mkErr tv nsScope
      ∧ pyOr (dGet args "name") (dGet args aliasKey) = some tv := by
  by_cases hc : c
  · rw [if_pos hc] at hx
    exact resourceCheck_errors_mem resp q args aliasKey mkErr sugKey nsScope st x hx
  · rw [if_neg hc] at hx
    exact Or.inl hx

theorem chainErrorsMem (resp : Query → List Entry) (args : List (String × JVal))
    (nsScope : JVal) (cpod cdep csvc : Prop) [Decidable cpod] [Decidable cdep]
    [Decidable csvc] (st3 : VAcc) (x : ErrMsg)
    (hx : x ∈ (
      let p1 : VAcc × Bool :=
        if cpod then resourceCheck resp (Query.qPods nsScope) args "pod_name"
          ErrMsg.podNotFound "available_pods" nsScope st3 else (st3, false)
      let p2 : VAcc × Bool :=
        if ¬ p1.2 ∧ cdep then resourceCheck resp (Query.qDeps nsScope) args
          "deployment_name" ErrMsg.depNotFound "available_deployments" nsScope p1.1
        else (p1.1, p1.2)
      let p3 : VAcc × Bool :=
        if ¬ p2.2 ∧ csvc then resourceCheck resp (Query.qSvcs nsScope) args
          "service_name" ErrMsg.svcNotFound "available_services" nsScope p2.1
        else (p2.1, p2.2)
      p3).1.1) :
    x ∈ st3.1
    ∨ (∃ tv ns', x = ErrMsg.podNotFound tv ns'
        ∧ pyOr (dGet args "name") (dGet args "pod_name") = some tv)
    ∨ (∃ tv ns', x = ErrMsg.depNotFound tv ns'
        ∧ pyOr (dGet args "name") (dGet args "deployment_name") = some tv)
    ∨ (∃ tv ns', x = ErrMsg.svcNotFound tv ns'
        ∧ pyOr (dGet args "name") (dGet args "service_name") = some tv) := by
  dsimp only at hx
  rcases ite_resourceCheck_errors_mem _ _ _ _ _ _ _ _ _ _ _ hx
    with hx2 | ⟨tv, hxe, hpy⟩
  · rcases ite_resourceCheck_errors_mem _ _ _ _ _ _ _ _ _ _ _ hx2
      with hx3 | ⟨tv, hxe, hpy⟩
    · rcases ite_resourceCheck_errors_mem _ _ _ _ _ _ _ _ _ _ _ hx3
        with hx4 | ⟨tv, hxe, hpy⟩
      · exact Or.inl hx4
      · exact Or.inr (Or.inl ⟨tv, nsScope, hxe, hpy⟩)
    · exact Or.inr (Or.inr (Or.inl ⟨tv, nsScope, hxe, hpy⟩))
  · exact Or.inr (Or.inr (Or.inr ⟨tv, nsScope, hxe, hpy⟩))

theorem errs2_shape (sig : List (String × String)) (args : List (String × JVal))
    (x : ErrMsg)
    (hx : x ∈ (args.foldl (fun acc kv =>
        if (dGet sig kv.1).isSome then acc
        else (acc.1 ++ [.unexpectedArg kv.1],
              dSet acc.2 "expected_args" (dKeys sig))) ([], [])).1 ++
      sig.filterMap (fun p =>
        if p.1 = "return" ∨ (dGet args p.1).isSome then none
        else some (ErrMsg.missingArg p.1))) :
    (∃ k, x = ErrMsg.unexpectedArg k) ∨ (∃ k, x = ErrMsg.missingArg k) := by
  rcases List.mem_append.mp hx with hx | hx
  · rcases mem_step1_errors sig args ([], []) x hx with h | h
    · simp at h
    · exact Or.inl h
  · rcases List.mem_filterMap.mp hx with ⟨p, _, hp⟩
    revert hp
    split
    · intro hp
      cases hp
    · intro hp
      injection hp with hp
      exact Or.inr ⟨p.1, hp.symm⟩

theorem file_step_mem (P : List ErrMsg) (args : List (String × JVal))
    (fe : JVal → Bool) (ap : JVal → JVal) (x : ErrMsg)
    (hx : x ∈ (match dGet args "file" with
      | none => (P, args)
      | some fv => if fe fv then (P, dSet args "file" (ap fv))
                   else (P ++ [ErrMsg.fileNotFound fv], args)).1) :
    x ∈ P ∨ ∃ p, x = ErrMsg.fileNotFound p := by
  revert hx
  cases dGet args "file"
  · exact fun hx => Or.inl hx
  · dsimp only
    split
    · exact fun hx => Or.inl hx
    · intro hx
      rcases List.mem_append.mp hx with hx | hx
      · exact Or.inl hx
      · simp only [List.mem_singleton] at hx
        exact Or.inr ⟨_, hx⟩

theorem validateArgs_errors_shape (reg : Registry) (resp : Query → List Entry)
    (fe : JVal → Bool) (ap : JVal → JVal) (toolName : String)
    (args : List (String × JVal)) (x : ErrMsg)
    (hx : x ∈ (validateArgs reg resp fe ap toolName args).errors) :
    (∃ k, x = ErrMsg.unexpectedArg k) ∨ (∃ k, x = ErrMsg.missingArg k)
    ∨ (∃ n, x = ErrMsg.nsNotFound n)
    ∨ (∃ tv ns2, x = ErrMsg.podNotFound tv ns2
        ∧ pyOr (dGet args "name") (dGet args "pod_name") = some tv)
    ∨ (∃ tv ns2, x = ErrMsg.depNotFound tv ns2
        ∧ pyOr (dGet args "name") (dGet args "deployment_name") = some tv)
    ∨ (∃ tv ns2, x = ErrMsg.svcNotFound tv ns2
        ∧ pyOr (dGet args "name") (dGet args "service_name") = some tv)
    ∨ (∃ p, x = ErrMsg.fileNotFound p) := by
  unfold validateArgs at hx
  dsimp only at hx
  rcases file_step_mem _ args fe ap x hx with hx | hfile
  · rcases chainErrorsMem _ _ _ _ _ _ _ x hx
        with hx | ⟨tv, ns2, hxe, hpy⟩ | ⟨tv, ns2, hxe, hpy⟩ | ⟨tv, ns2, hxe, hpy⟩
    · cases hns : dGet args "namespace" with
      | none =>
        rw [hns] at hx
        dsimp only at hx
        rcases errs2_shape _ args x hx with h | h
        · exact Or.inl h
        · exact Or.inr (Or.inl h)
      | some nsv =>
        rw [hns] at hx
        dsimp only at hx
        cases hq : namesOf (resp Query.qNamespaces) with
        | none =>
          rw [hq] at hx
          dsimp only at hx
          rcases errs2_shape _ args x hx with h | h
          · exact Or.inl h
          · exact Or.inr (Or.inl h)
        | some names =>
          rw [hq] at hx
          dsimp only at hx
          by_cases hin : jvalInStrList nsv names = true
          · rw [if_pos hin] at hx
            rcases errs2_shape _ args x hx with h | h
            · exact Or.inl h
            · exact Or.inr (Or.inl h)
          · rw [if_neg hin] at hx
            dsimp only at hx
            rcases List.mem_append.mp hx with hx | hx
            · rcases errs2_shape _ args x hx with h | h
              · exact Or.inl h
              · exact Or.inr (Or.inl h)
            · simp only [List.mem_singleton] at hx
              exact Or.inr (Or.inr (Or.inl ⟨nsv, hx⟩))
    · exact Or.inr (Or.inr (Or.inr (Or.inl ⟨tv, ns2, hxe, hpy⟩)))
    · exact Or.inr (Or.inr (Or.inr (Or.inr (Or.inl ⟨tv, ns2, hxe, hpy⟩))))
    · exact Or.inr (Or.inr (Or.inr (Or.inr (Or.inr (Or.inl ⟨tv, ns2, hxe, hpy⟩)))))
  · exact Or.inr (Or.inr (Or.inr (Or.inr (Or.inr (Or.inr hfile)))))

/-- Claim C9.  In `validate_args`, a resource-kind candidate whose
arguments contain neither `name` nor the kind-specific alias
(`pod_name` / `deployment_name` / `service_name`) never receives a
resource-existence error of that kind — the check is silently skipped —
and such a candidate can still validate as ok (final conjunct: a concrete
`list_pods` candidate with only a valid `namespace` gets an empty error
list). -/
theorem C9_resource_check_skipped :
    (∀ (reg : Registry) (resp : Query → List Entry) (fe : JVal → Bool)
      (ap : JVal → JVal) (toolName : String) (args : List (String × JVal)),
      dGet args "name" = none → dGet args "pod_name" = none →
      ∀ v w, ErrMsg.podNotFound v w ∉
        (validateArgs reg resp fe ap toolName args).errors)
    ∧ (∀ (reg : Registry) (resp : Query → List Entry) (fe : JVal → Bool)
      (ap : JVal → JVal) (toolName : String) (args : List (String × JVal)),
      dGet args "name" = none → dGet args "deployment_name" = none →
      ∀ v w, ErrMsg.depNotFound v w ∉
        (validateArgs reg resp fe ap toolName args).errors)
    ∧ (∀ (reg : Registry) (resp : Query → List Entry) (fe : JVal → Bool)
      (ap : JVal → JVal) (toolName : String) (args : List (String × JVal)),
      dGet args "name" = none → dGet args "service_name" = none →
      ∀ v w, ErrMsg.svcNotFound v w ∉
        (validateArgs reg resp fe ap toolName args).errors)
    ∧ (validateArgs [("list_pods", ⟨[("namespace", "str")], ""⟩)]
        (fun q => match q with
          | Query.qNamespaces => [Entry.withName "default"]
          | Query.qPods _ => [Entry.withName "web-1"]
          | _ => [])
        (fun _ => false) (fun v => v) "list_pods"
        [("namespace", JVal.jstr "default")]).errors = [] := by
  refine ⟨?_, ?_, ?_, rfl⟩
  · intro reg resp fe ap toolName args hname halias v w hmem
    rcases validateArgs_errors_shape reg resp fe ap toolName args _ hmem with
      ⟨k, h⟩ | ⟨k, h⟩ | ⟨n, h⟩ | ⟨tv, ns2, hxe, hpy⟩ | ⟨tv, ns2, hxe, hpy⟩
      | ⟨tv, ns2, hxe, hpy⟩ | ⟨p, h⟩
    · exact nomatch h
    · exact nomatch h
    · exact nomatch h
    · rw [hname, halias] at hpy
      simp [pyOr] at hpy
    · exact nomatch hxe
    · exact nomatch hxe
    · exact nomatch h
  · intro reg resp fe ap toolName args hname halias v w hmem
    rcases validateArgs_errors_shape reg resp fe ap toolName args _ hmem with
      ⟨k, h⟩ | ⟨k, h⟩ | ⟨n, h⟩ | ⟨tv, ns2, hxe, hpy⟩ | ⟨tv, ns2, hxe, hpy⟩
      | ⟨tv, ns2, hxe, hpy⟩ | ⟨p, h⟩
    · exact nomatch h
    · exact nomatch h
    · exact nomatch h
    · exact nomatch hxe
    · rw [hname, halias] at hpy
      simp [pyOr] at hpy
    · exact nomatch hxe
    · exact nomatch h
  · intro reg resp fe ap toolName args hname halias v w hmem
    rcases validateArgs_errors_shape reg resp fe ap toolName args _ hmem with
      ⟨k, h⟩ | ⟨k, h⟩ | ⟨n, h⟩ | ⟨tv, ns2, hxe, hpy⟩ | ⟨tv, ns2, hxe, hpy⟩
      | ⟨tv, ns2, hxe, hpy⟩ | ⟨p, h⟩
    · exact nomatch h
    · exact nomatch h
    · exact nomatch h
    · exact nomatch hxe
    · exact nomatch hxe
    · rw [hname, halias] at hpy
      simp [pyOr] at hpy
    · exact nomatch h

/-- Witness for C9: a `restart_deployment` candidate that names no
deployment (neither `name` nor `deployment_name` supplied) receives no
deployment-existence error even though the deployment list is empty. -/
theorem C9_witness :
    ErrMsg.depNotFound (JVal.jstr "nginx") (JVal.jstr "default") ∉
      (validateArgs [("restart_deployment",
          ⟨[("deployment_name", "str"), ("namespace", "str")], ""⟩)]
        (fun q => match q with
          | Query.qNamespaces => [Entry.withName "default"]
          | _ => [])
        (fun _ => false) (fun v => v) "restart_deployment"
        [("namespace", JVal.jstr "default")]).errors :=
  C9_resource_check_skipped.2.1 _ _ _ _ "restart_deployment"
    [("namespace", JVal.jstr "default")] rfl rfl
    (JVal.jstr "nginx") (JVal.jstr "default")

theorem runTurnAgentAux_spec (reg : Registry) (resp : Query → List Entry)
    (fe : JVal → Bool) (ap : JVal → JVal)
    (cmds : List (List (String × JVal))) : ∀ (i : Nat) (out : TurnOut),
    runTurnAgentAux reg resp fe ap i cmds out =
      ⟨out.executed ++ ((cmds.enumFrom i).filter (fun p =>
          (validateArgs reg resp fe ap (cmdTool p.2) (cmdArgs p.2)).errors.isEmpty)).map
          Prod.fst,
       out.reported ++ ((cmds.enumFrom i).filter (fun p =>
          !(validateArgs reg resp fe ap (cmdTool p.2) (cmdArgs p.2)).errors.isEmpty)).map
          Prod.fst⟩ := by
  induction cmds with
  | nil => intro i out; simp [runTurnAgentAux, List.enumFrom]
  | cons cmd r ih =>
    intro i out
    simp only [runTurnAgentAux, List.enumFrom]
    by_cases hok : (validateArgs reg resp fe ap (cmdTool cmd) (cmdArgs cmd)).errors.isEmpty
    · rw [if_pos hok, ih]
      simp [hok, List.filter_cons]
    · rw [if_neg hok, ih]
      simp only [Bool.not_eq_true] at hok
      simp [hok, List.filter_cons]

theorem runTurnCppAux_spec (cmds : List (List (String × JVal))) :
    ∀ i : Nat, runTurnCppAux i cmds = (List.range cmds.length).map (· + i) := by
  induction cmds with
  | nil => intro i; simp [runTurnCppAux]
  | cons cmd r ih =>
    intro i
    simp only [runTurnCppAux, List.length_cons, List.range_succ_eq_map, List.map_cons,
      List.map_map, ih]
    congr 1
    · omega
    · apply List.map_congr_left
      intro a _
      simp only [Function.comp]
      omega

/-- Claim C1 (amended).  In `agent.py`'s run loop the claim holds: the
positions dispatched to the executor are exactly the candidates whose
verdict has no errors (in order), the error-verdict candidates are exactly
the reported ones, and in particular a candidate with a non-empty error
list is never dispatched while the remaining candidates still proceed.
The `agentcpp.py` run loop (lines 303–319), also cited by the claim,
performs no validation at all: it dispatches every candidate (final
conjunct), so the invariant does not hold there — see the
counterexample. -/
theorem C1_verdict_gating :
    (∀ (reg : Registry) (resp : Query → List Entry) (fe : JVal → Bool)
      (ap : JVal → JVal) (cmds : List (List (String × JVal))),
      (runTurnAgent reg resp fe ap cmds).executed =
        ((cmds.enum.filter (fun p =>
          (validateArgs reg resp fe ap (cmdTool p.2) (cmdArgs p.2)).errors.isEmpty)).map
          Prod.fst)
      ∧ (runTurnAgent reg resp fe ap cmds).reported =
        ((cmds.enum.filter (fun p =>
          !(validateArgs reg resp fe ap (cmdTool p.2) (cmdArgs p.2)).errors.isEmpty)).map
          Prod.fst)
      ∧ (∀ i cmd, (i, cmd) ∈ cmds.enum →
          (validateArgs reg resp fe ap (cmdTool cmd) (cmdArgs cmd)).errors ≠ [] →
          i ∉ (runTurnAgent reg resp fe ap cmds).executed))
    ∧ (∀ cmds : List (List (String × JVal)), runTurnCpp cmds = List.range cmds.length) := by
  constructor
  · intro reg resp fe ap cmds
    have hs := runTurnAgentAux_spec reg resp fe ap cmds 0 ⟨[], []⟩
    unfold runTurnAgent
    rw [hs]
    refine ⟨by simp [List.enum], by simp [List.enum], ?_⟩
    intro i cmd hmem herr hin
    simp only [List.enum] at hin ⊢
    simp only [List.nil_append] at hin
    rcases List.mem_map.mp hin with ⟨p, hp, hpi⟩
    have hpmem := List.mem_of_mem_filter hp
    have hpok := List.of_mem_filter hp
    have h1 : cmds[p.1]? = some p.2 := by
      have : (p.1, p.2) ∈ cmds.enum := by simpa [List.enum] using hpmem
      exact List.mk_mem_enum_iff_getElem?.mp this
    have h2 : cmds[i]? = some cmd := by
      have : (i, cmd) ∈ cmds.enum := hmem
      exact List.mk_mem_enum_iff_getElem?.mp this
    rw [hpi] at h1
    rw [h1] at h2
    injection h2 with h2
    rw [h2] at hpok
    rw [List.isEmpty_iff] at hpok
    exact herr hpok
  · intro cmds
    unfold runTurnCpp
    rw [runTurnCppAux_spec cmds 0]
    simp

/-- Counterexample to C1 as stated: in the `agentcpp.py` run loop a
candidate whose validation verdict (as `validate_args` computes it) has
three errors — missing `replicas`, missing `namespace`, and a deployment
that does not exist — is nevertheless dispatched to the executor (position
0 appears in the dispatch list), because that loop calls `call_mcp` on
every candidate without consulting any verdict. -/
theorem C1_counterexample :
    (validateArgs
      [("scale_deployment",
        ⟨[("deployment_name", "str"), ("replicas", "int"),
          ("namespace", "str")], ""⟩)]
      (fun _ => []) (fun _ => false) (fun v => v)
      (cmdTool [("tool", JVal.jstr "scale_deployment"),
                ("args", JVal.jobj [("deployment_name", JVal.jstr "web")])])
      (cmdArgs [("tool", JVal.jstr "scale_deployment"),
                ("args", JVal.jobj [("deployment_name", JVal.jstr "web")])])).errors
      = [ErrMsg.missingArg "replicas", ErrMsg.missingArg "namespace",
         ErrMsg.depNotFound (JVal.jstr "web") (JVal.jstr "default")]
    ∧ runTurnCpp [[("tool", JVal.jstr "scale_deployment"),
        ("args", JVal.jobj [("deployment_name", JVal.jstr "web")])]] = [0] :=
  ⟨rfl, rfl⟩

/-- Witness for C1: in the `agent.py` loop, a turn with an error-verdict
candidate (position 0) followed by a clean candidate (position 1) executes
exactly position 1, reports position 0, and in particular position 0 is
never dispatched. -/
theorem C1_witness :
    (runTurnAgent
      [("scale_deployment",
        ⟨[("deployment_name", "str"), ("replicas", "int"),
          ("namespace", "str")], ""⟩),
       ("list_pods", ⟨[("namespace", "str")], ""⟩)]
      (fun q => match q with
        | Query.qNamespaces => [Entry.withName "default"]
        | _ => [])
      (fun _ => false) (fun v => v)
      [[("tool", JVal.jstr "scale_deployment"),
        ("args", JVal.jobj [("deployment_name", JVal.jstr "web")])],
       [("tool", JVal.jstr "list_pods"),
        ("args", JVal.jobj [("namespace", JVal.jstr "default")])]]).executed = [1]
    ∧ (runTurnAgent
      [("scale_deployment",
        ⟨[("deployment_name", "str"), ("replicas", "int"),
          ("namespace", "str")], ""⟩),
       ("list_pods", ⟨[("namespace", "str")], ""⟩)]
      (fun q => match q with
        | Query.qNamespaces => [Entry.withName "default"]
        | _ => [])
      (fun _ => false) (fun v => v)
      [[("tool", JVal.jstr "scale_deployment"),
        ("args", JVal.jobj [("deployment_name", JVal.jstr "web")])],
       [("tool", JVal.jstr "list_pods"),
        ("args", JVal.jobj [("namespace", JVal.jstr "default")])]]).reported = [0]
    ∧ (0 : Nat) ∉ (runTurnAgent
      [("scale_deployment",
        ⟨[("deployment_name", "str"), ("replicas", "int"),
          ("namespace", "str")], ""⟩),
       ("list_pods", ⟨[("namespace", "str")], ""⟩)]
      (fun q => match q with
        | Query.qNamespaces => [Entry.withName "default"]
        | _ => [])
      (fun _ => false) (fun v => v)
      [[("tool", JVal.jstr "scale_deployment"),
        ("args", JVal.jobj [("deployment_name", JVal.jstr "web")])],
       [("tool", JVal.jstr "list_pods"),
        ("args", JVal.jobj [("namespace", JVal.jstr "default")])]]).executed := by
  have h := (C1_verdict_gating.1
    [("scale_deployment",
      ⟨[("deployment_name", "str"), ("replicas", "int"),
        ("namespace", "str")], ""⟩),
     ("list_pods", ⟨[("namespace", "str")], ""⟩)]
    (fun q => match q with
      | Query.qNamespaces => [Entry.withName "default"]
      | _ => [])
    (fun _ => false) (fun v => v)
    [[("tool", JVal.jstr "scale_deployment"),
      ("args", JVal.jobj [("deployment_name", JVal.jstr "web")])],
     [("tool", JVal.jstr "list_pods"),
      ("args", JVal.jobj [("namespace", JVal.jstr "default")])]])
  refine ⟨h.1.trans (by rfl), h.2.1.trans (by rfl), ?_⟩
  refine h.2.2 0
    [("tool", JVal.jstr "scale_deployment"),
     ("args", JVal.jobj [("deployment_name", JVal.jstr "web")])] ?_ ?_
  · exact List.mem_cons_self _ _
  · intro hnil
    exact List.cons_ne_nil _ _ (((rfl :
      (validateArgs
        [("scale_deployment",
          ⟨[("deployment_name", "str"), ("replicas", "int"),
            ("namespace", "str")], ""⟩),
         ("list_pods", ⟨[("namespace", "str")], ""⟩)]
        (fun q => match q with
          | Query.qNamespaces => [Entry.withName "default"]
          | _ => [])
        (fun _ => false) (fun v => v)
        (cmdTool [("tool", JVal.jstr "scale_deployment"),
          ("args", JVal.jobj [("deployment_name", JVal.jstr "web")])])
        (cmdArgs [("tool", JVal.jstr "scale_deployment"),
          ("args", JVal.jobj [("deployment_name", JVal.jstr "web")])])).errors
        = [ErrMsg.missingArg "replicas", ErrMsg.missingArg "namespace",
           ErrMsg.depNotFound (JVal.jstr "web") (JVal.jstr "default")])).symm.trans hnil)

/-- Whether a tool result is an error response (carries an `"error"`
field, as every `invalid_response` does). -/
def isErrorResponse (v : JVal) : Bool :=
  match v with
  | .jobj fs => (dGet fs "error").isSome
  | _ => false

theorem validateDeployment_isErr (now : ℚ) (c : CacheState) (io : ClusterIO)
    (ns dn : JVal) (e : JVal)
    (h : (validateDeployment now c io ns dn).1 = some e) :
    isErrorResponse e = true := by
  unfold validateDeployment at h
  dsimp only at h
  simp only [apply_ite Prod.fst] at h
  split_ifs at h <;> (injection h with h; subst h; rfl)

/-- Claim C10 (amended).  `scale_deployment` rejects an invalid replica
count before any mutation: whenever `replicas` is not convertible to an
integer or converts to a negative one, no scale patch is attempted and no
cache entry is invalidated, and the returned value is an error response —
with the exact message `"Replicas must be an integer."` resp.
`"Replicas must be >= 0."` when the preceding deployment validation
passes (when it fails, its error response is returned instead, still with
no mutation). -/
theorem C10_replica_validation (now : ℚ) (c : CacheState) (io : ClusterIO)
    (apiOk : Option String) (dn replicas ns : JVal)
    (hbad : pyInt replicas = none ∨ ∃ r, pyInt replicas = some r ∧ r < 0) :
    (scaleDeployment now c io apiOk dn replicas ns).2.2.patches = []
    ∧ (scaleDeployment now c io apiOk dn replicas ns).2.2.invalidations = []
    ∧ isErrorResponse (scaleDeployment now c io apiOk dn replicas ns).1 = true
    ∧ ((validateDeployment now c io ns dn).1 = none →
        (pyInt replicas = none →
          (scaleDeployment now c io apiOk dn replicas ns).1
            = invalidResponse "Replicas must be an integer." none)
        ∧ (∀ r, pyInt replicas = some r → r < 0 →
          (scaleDeployment now c io apiOk dn replicas ns).1
            = invalidResponse "Replicas must be >= 0." none)) := by
  unfold scaleDeployment
  cases hval : validateDeployment now c io ns dn with
  | mk verr c1 =>
    cases verr with
    | some e =>
      dsimp only
      refine ⟨rfl, rfl, ?_, ?_⟩
      · exact validateDeployment_isErr now c io ns dn e (by rw [hval])
      · intro hnone
        cases hnone
    | none =>
      dsimp only
      rcases hbad with hnone | ⟨r, hr, hneg⟩
      · rw [hnone]
        dsimp only
        exact ⟨rfl, rfl, rfl, fun _ => ⟨fun _ => rfl, fun r hr _ => nomatch hr⟩⟩
      · rw [hr]
        dsimp only
        rw [if_pos hneg]
        refine ⟨rfl, rfl, rfl, ?_⟩
        intro h3
        constructor
        · intro hc
          exact nomatch hc
        · intro r2 hr2 hneg2
          rfl

/-- Witness for C10: with an existing deployment `web` in namespace
`default` and the non-numeric replica value `"abc"`, the call returns the
integer-validation error and performs no patch and no invalidation. -/
theorem C10_witness :
    (scaleDeployment 0 [] ⟨some ["default"], fun _ => some ["web"]⟩ none
      (JVal.jstr "web") (JVal.jstr "abc") (JVal.jstr "default")).2.2.patches = []
    ∧ (scaleDeployment 0 [] ⟨some ["default"], fun _ => some ["web"]⟩ none
      (JVal.jstr "web") (JVal.jstr "abc") (JVal.jstr "default")).2.2.invalidations
        = []
    ∧ (scaleDeployment 0 [] ⟨some ["default"], fun _ => some ["web"]⟩ none
      (JVal.jstr "web") (JVal.jstr "abc") (JVal.jstr "default")).1
        = invalidResponse "Replicas must be an integer." none := by
  have h := C10_replica_validation 0 [] ⟨some ["default"], fun _ => some ["web"]⟩
    none (JVal.jstr "web") (JVal.jstr "abc") (JVal.jstr "default") (Or.inl rfl)
  exact ⟨h.1, h.2.1, (h.2.2.2 rfl).1 rfl⟩

/-- Counterexample to C10 as stated: with a replica value that is not
convertible to an integer AND a deployment reference that fails
validation, the call returns the deployment-not-found error response, not
one of the two replica messages the claim names (the deployment check runs
first and shadows the replica check); the no-mutation part still holds. -/
theorem C10_counterexample :
    pyInt (JVal.jstr "abc") = none
    ∧ (scaleDeployment 0 [] ⟨some ["default"], fun _ => some []⟩ none
        (JVal.jstr "missing") (JVal.jstr "abc") (JVal.jstr "default")).1
      = invalidResponse
          "Deployment 'missing' not found in namespace 'default'." (some [])
    ∧ ("Deployment 'missing' not found in namespace 'default'."
        ≠ "Replicas must be an integer.")
    ∧ ("Deployment 'missing' not found in namespace 'default'."
        ≠ "Replicas must be >= 0.") :=
  ⟨rfl, rfl, by decide, by decide⟩
